import Mathlib

/-!
The command-line front end of elfspirit (`main.c`).

A shallow embedding of `src/main.c` and the properties of it that the
specification states.

Conventions of the embedding.

* A C pointer to characters is the list of the bytes that are mapped from
  that address on, up to the end of the mapping (`Ptr`): for an `argv`
  element, its string, its terminator, the words and the environment that
  follow it on the stack.  The C string at a pointer is the bytes before the
  first `0` (`cstr`); every `argv` element holds its terminator.  An option
  argument such as the `foo` of `-nfoo` is a pointer into the middle of an
  `argv` element, that is, a suffix of that element's bytes.
* A global `char x[LENGTH]` is the list of its bytes (`Buf`); an array that
  was only zeroed is the empty list, bytes that are not listed being `0`.
  `memcpy (x, p, LENGTH)` reads `LENGTH` bytes at `p`, whether or not a
  terminator is among them: it stores them, or, where fewer than `LENGTH`
  bytes are mapped at `p`, the read leaves the mapping and the process is
  killed.
* Standard output is the sequence of texts handed to `stdout`; they reach
  the file when the process returns or exits, and may be lost in part when it
  is killed.  Standard error is the sequence of diagnostics of `getopt_long`.
* `LENGTH` (from `common.h`), `hex2int` (from `common.c`) and the five
  engine operations are not part of `main.c`; they are fields of `Env`.
* `getopt_long` and `atoi` are the C library's; they are modelled after
  glibc.  What `printf ("%s\n", NULL)` does is left open by the C standard
  and is a field of `Env` as well.
* The block under `#ifdef DEBUG` is not part of the default build and is
  left out.
-/

namespace Elfspirit

/-! ## Characters, strings, buffers -/

/-- A pointer to characters: the bytes mapped from the address on. -/
abbrev Ptr := List Nat

/-- A global character array of `LENGTH` bytes. -/
abbrev Buf := List Nat

/-- Code of a character. -/
def ch (c : Char) : Nat := c.toNat

/-- Bytes of a string literal (without the terminator). -/
def lit (s : String) : List Nat := s.toList.map Char.toNat

/-- The C string found at a pointer: the bytes before the first `0`. -/
def cstr (p : Ptr) : List Nat := p.takeWhile (fun c => c != 0)

/-- The call `memcpy (dst, p, LENGTH)`: the new content of `dst`, or `none`
where fewer than `LENGTH` bytes are mapped at `p`: the read leaves the
mapping and the process is killed. -/
def memcpy (LENGTH : Nat) (p : Ptr) : Option Buf :=
  if LENGTH ≤ p.length then some (p.take LENGTH) else none

/-- The call `memset (dst, 0, LENGTH)`: the new content of `dst`. -/
def memset0 : Buf := []

/-- The C string read from a `LENGTH`-byte array: `none` when the array holds
no terminator, in which case the read runs past the end of the array. -/
def bufstr (LENGTH : Nat) (b : Buf) : Option (List Nat) :=
  if b.contains 0 || decide (b.length < LENGTH) then some (cstr b) else none

/-- The test `!strcmp (buf, s)` for a literal `s` shorter than the array. -/
def strcmp_eq (LENGTH : Nat) (b : Buf) (s : List Nat) : Bool :=
  bufstr LENGTH b == some s

/-! ## `atoi` -/

/-- The `isspace` of the C locale. -/
def isspace (c : Nat) : Bool := c == 32 || (decide (9 ≤ c) && decide (c ≤ 13))

/-- The `isdigit` of the C library. -/
def isdigit (c : Nat) : Bool := decide (48 ≤ c) && decide (c ≤ 57)

/-- Value of the leading run of decimal digits at a pointer. -/
def digitsValue (p : Ptr) : Nat :=
  (p.takeWhile isdigit).foldl (fun acc c => acc * 10 + (c - 48)) 0

/-- The call `strtol (p, NULL, 10)` with a 64-bit `long`: white space is
skipped, a sign is optional, the value saturates at the bounds of `long`. -/
def strtol10 (p : Ptr) : Int :=
  match p.dropWhile isspace with
  | 45 :: q => - (min (digitsValue q) (2 ^ 63) : Nat)
  | 43 :: q => (min (digitsValue q) (2 ^ 63 - 1) : Nat)
  | q => (min (digitsValue q) (2 ^ 63 - 1) : Nat)

/-- Conversion of an integer to `uint32_t`. -/
def toU32 (v : Int) : Nat := (v % 4294967296).toNat

/-- Conversion of an integer to `int`. -/
def toI32 (v : Int) : Int := (v + 2147483648) % 4294967296 - 2147483648

/-- The call `atoi (p)`, which glibc defines as `(int) strtol (p, NULL, 10)`. -/
def atoi (p : Ptr) : Int := toI32 (strtol10 p)

/-! ## `getopt_long` (glibc) -/

/-- The `no_argument` of `getopt.h`. -/
def no_argument : Nat := 0

/-- The `required_argument` of `getopt.h`. -/
def required_argument : Nat := 1

/-- The `optional_argument` of `getopt.h`. -/
def optional_argument : Nat := 2

/-- One entry of a `struct option` table; the `flag` member is `NULL` in
every entry of `longopts` and is left out. -/
structure LongOption where
  name : List Nat
  has_arg : Nat
  val : Nat
  deriving DecidableEq, Repr

/-- The option string of `main.c`. -/
def shortopts : List Nat := lit "n:z:f:c:a:o:v:h::"

/-- The long option table of `main.c` (without the closing all-zero entry). -/
def longopts : List LongOption :=
  [ ⟨lit "section-name", required_argument, ch 'n'⟩,
    ⟨lit "section-size", required_argument, ch 'z'⟩,
    ⟨lit "file-name", required_argument, ch 'f'⟩,
    ⟨lit "configure-name", required_argument, ch 'c'⟩,
    ⟨lit "architcture", required_argument, ch 'a'⟩,
    ⟨lit "offset", required_argument, ch 'o'⟩,
    ⟨lit "lib-version", required_argument, ch 'v'⟩,
    ⟨lit "help", optional_argument, ch 'h'⟩ ]

/-- A diagnostic that `getopt_long` writes to standard error (`opterr` is
never cleared and the option string does not start with a colon): which
message, and the option it names.  For a long option that is not found the
text is the whole word after the two dashes. -/
inductive Diag
  | invalid_option (c : Nat)
  | requires_argument (c : Nat)
  | unrecognized (word : List Nat)
  | ambiguous (word : List Nat)
  | allows_no_argument (name : List Nat)
  | long_requires_argument (name : List Nat)
  deriving DecidableEq, Repr

/-- One return of `getopt_long`: the value returned, `optarg`, and the
diagnostic written to standard error during the call, if any. -/
structure Event where
  opt : Nat
  optarg : Option Ptr
  diag : Option Diag
  deriving DecidableEq, Repr

/-- The return for an unrecognised option or a missing argument. -/
def Event.bad (d : Diag) : Event := ⟨ch '?', none, some d⟩

/-- An option that waits for the next `argv` element as its argument: the
value to return, and the diagnostic if there is no next element. -/
structure Pending where
  val : Nat
  missing : Diag
  deriving DecidableEq, Repr

/-- The outcome of `strchr (optstring, c)` and of the look at the colons that
follow: `none` when `c` is not in the string, else the kind of argument. -/
def strchrOpt : List Nat → Nat → Option Nat
  | [], _ => none
  | x :: xs, c =>
    if x = c then
      match xs with
      | 58 :: 58 :: _ => some optional_argument
      | 58 :: _ => some required_argument
      | _ => some no_argument
    else strchrOpt xs c

/-- Lookup of a short option character; `:` and `;` are never options. -/
def shortLookup (c : Nat) : Option Nat :=
  if c = ch ':' ∨ c = ch ';' then none else strchrOpt shortopts c

/-- What one `argv` element yields: the returns it causes by itself, and the
option (if any) whose required argument is the next `argv` element. -/
structure Cluster where
  events : List Event
  pending : Option Pending
  deriving DecidableEq, Repr

/-- An element of short options; the argument is `nextchar`, the pointer just
after the dash. -/
def shortCluster : Ptr → Cluster
  | [] => ⟨[], none⟩
  | c :: cs =>
    if c = 0 then ⟨[], none⟩
    else
      match shortLookup c with
      | none =>
        let r := shortCluster cs
        ⟨Event.bad (.invalid_option c) :: r.events, r.pending⟩
      | some 0 => let r := shortCluster cs; ⟨⟨c, none, none⟩ :: r.events, r.pending⟩
      | some 1 =>
        if cs.headD 0 ≠ 0 then ⟨[⟨c, some cs, none⟩], none⟩
        else ⟨[], some ⟨c, .requires_argument c⟩⟩
      | some _ =>
        if cs.headD 0 ≠ 0 then ⟨[⟨c, some cs, none⟩], none⟩
        else ⟨[⟨c, none, none⟩], none⟩

/-- Result of the search of a name in the long option table. -/
inductive LongMatch
  | found (o : LongOption)
  | ambiguous
  | unknown
  deriving DecidableEq, Repr

/-- Search of the long option table: an exact match wins, else the name must
abbreviate entries that all agree in `has_arg` and `val`. -/
def longLookup (table : List LongOption) (name : List Nat) : LongMatch :=
  match table.find? (fun o => o.name == name) with
  | some o => .found o
  | none =>
    match table.filter (fun o => name.isPrefixOf o.name) with
    | [] => .unknown
    | o :: os =>
      if os.all (fun p => p.has_arg == o.has_arg && p.val == o.val) then .found o
      else .ambiguous

/-- The value that `getopt_long` returns for a name that is found. -/
def LongMatch.val? : LongMatch → Option Nat
  | .found o => some o.val
  | _ => none

/-- An element that starts with two dashes; the argument is `nextchar`, the
pointer just after them. -/
def longOption (nextchar : Ptr) : Cluster :=
  let name := nextchar.takeWhile (fun c => c != 0 && c != ch '=')
  let nameend := nextchar.dropWhile (fun c => c != 0 && c != ch '=')
  match longLookup longopts name with
  | .found o =>
    if nameend.headD 0 ≠ 0 then
      if o.has_arg ≠ no_argument then ⟨[⟨o.val, some (nameend.drop 1), none⟩], none⟩
      else ⟨[Event.bad (.allows_no_argument o.name)], none⟩
    else if o.has_arg = required_argument then
      ⟨[], some ⟨o.val, .long_requires_argument o.name⟩⟩
    else ⟨[⟨o.val, none, none⟩], none⟩
  | .ambiguous => ⟨[Event.bad (.ambiguous (cstr nextchar))], none⟩
  | .unknown => ⟨[Event.bad (.unrecognized (cstr nextchar))], none⟩

/-- Outcome of scanning `argv[1..]`. -/
structure Scan where
  events : List Event
  used : List Ptr
  nonopts : List Ptr
  deriving DecidableEq, Repr

/-- The scan of `argv[1..]` by repeated calls of `getopt_long`.  `pending` is
an option that waits for the next element as its argument.  `used` are the
elements consumed as options and option arguments, `nonopts` the others;
glibc permutes `argv` into `used` followed by `nonopts`, unless
`POSIXLY_CORRECT` is set, in which case the scan stops at the first
non-option. -/
def scan (posix : Bool) : Option Pending → List Ptr → Scan
  | some pd, [] => ⟨[Event.bad pd.missing], [], []⟩
  | some pd, a :: rest =>
    let r := scan posix none rest
    ⟨⟨pd.val, some a, none⟩ :: r.events, a :: r.used, r.nonopts⟩
  | none, [] => ⟨[], [], []⟩
  | none, a :: rest =>
    if cstr a = lit "--" then ⟨[], [a], rest⟩
    else if a.headD 0 ≠ ch '-' ∨ a.getD 1 0 = 0 then
      if posix then ⟨[], [], a :: rest⟩
      else
        let r := scan posix none rest
        ⟨r.events, r.used, a :: r.nonopts⟩
    else
      let cl := if a.getD 1 0 = ch '-' then longOption (a.drop 2) else shortCluster (a.drop 1)
      let r := scan posix cl.pending rest
      ⟨cl.events ++ r.events, a :: r.used, r.nonopts⟩

/-- State of `getopt_long` when it has returned `EOF`. -/
structure GetoptEnd where
  events : List Event
  optind : Nat
  argv : List Ptr
  nonopts : List Ptr
  deriving DecidableEq, Repr

/-- All the returns of `getopt_long (argc, argv, shortopts, longopts, NULL)`
up to `EOF`, the final `optind` and the permuted `argv`.  With `argc < 1`
the first call returns `EOF` and `optind` keeps its initial value 1. -/
def getopt_loop (posix : Bool) : List Ptr → GetoptEnd
  | [] => ⟨[], 1, [], []⟩
  | a0 :: rest =>
    let r := scan posix none rest
    ⟨r.events, 1 + r.used.length, a0 :: (r.used ++ r.nonopts), r.nonopts⟩

/-! ## The globals of `main.c` -/

/-- The file-scope variables. -/
structure Globals where
  section_name : Buf
  file_name : Buf
  config_name : Buf
  arch : Buf
  ver : Buf
  elf_name : Buf
  function : Buf
  size : Nat
  off : Nat
  deriving DecidableEq, Repr

/-- Static initialisation: every object of static storage is zero. -/
def Globals.zero : Globals := ⟨[], [], [], [], [], [], [], 0, 0⟩

/-- The function `init`. -/
def init (g : Globals) : Globals :=
  { g with section_name := memset0, file_name := memset0, elf_name := memset0,
           function := memset0, size := 0, off := 0 }

/-- The text `help`. -/
def help : String :=
  "Usage: elfspirit [function] [option]<argument>... ELF\n" ++
  "Currently defined functions:\n" ++
  "  addsec           Add a section in a ELF file\n" ++
  "  delsec           Delete a section of ELF file\n" ++
  "  injectso         Statically injected dynamic link library\n" ++
  "  delshtab         Delete section header table\n" ++
  "Currently defined options:\n" ++
  "  -n, --section-name=<section name>         Set section name\n" ++
  "  -z, --section-size=<section size>         Set section size\n" ++
  "  -f, --file-name=<file name>               File containing code(e.g. so, etc.)\n" ++
  "  -c, --configure-name=<file name>          File containing configure(e.g. json, etc.)\n" ++
  "  -a, --architecture=<ELF architecture>     ELF architecture\n" ++
  "  -o, --offset=<injection offset>           Offset of injection point\n" ++
  "  -v, --version-libc=<libc version>         Libc.so or ld.so version\n" ++
  "  -h, --help[=\x7bnone|English|Chinese\x7d]       Display this output\n" ++
  "Detailed Usage: \n" ++
  "  elfspirit addsec   [-n]<section name> [-z]<section size> [-o]<offset(optional)> ELF\n" ++
  "  elfspirit injectso [-n]<section name> [-f]<so name> [-c]<configure file>\n" ++
  "                     [-v]<libc version> ELF\n" ++
  "  elfspirit delsec   [-n]<section name> ELF\n" ++
  "  elfspirit delshtab ELF\n" ++
  "  elfspirit parse ELF\n"

/-- The text `help_chinese`. -/
def help_chinese : String :=
  "用法： elfspirit [OPTIONS] FILE...\n" ++
  " Description...\n" ++
  "静态注入动态链接库" ++
  "  -z, --zero      在文件末尾添加一个节\n" ++
  "  -h, --help      Display...\n"

/-! ## The engine and the process -/

/-- A call of an engine operation, with the content of the arrays passed. -/
inductive Call
  | add_section (elf_name : Buf) (off : Nat) (section_name : Buf) (size : Nat)
  | inject_so (elf_name section_name so_name config_name ver : Buf)
  | delete_section (elf_name section_name : Buf)
  | delete_shtab (elf_name : Buf)
  | parse (elf_name : Buf)
  deriving DecidableEq, Repr

/-- What a call of an engine operation does to the control flow. -/
inductive EngineResult
  | returned (value : Int)
  | terminated (status : Nat)
  deriving DecidableEq, Repr

/-- What `main.c` takes from outside: `LENGTH` of `common.h`, `hex2int`, the
engine operations, what `printf ("%s\n", NULL)` does on the platform (`some t`:
it writes `t`, as the `printf` of glibc does with `"(null)\n"`; `none`: the
process is killed, as where the compiler turns the call into
`puts (optarg)`), and whether `POSIXLY_CORRECT` is set. -/
structure Env where
  LENGTH : Nat
  hex2int : Ptr → Int
  engine : Call → EngineResult
  printf_null : Option String
  posixly_correct : Bool

/-- A piece of text handed to `stdout`: a literal text, or a C string
argument. -/
inductive Out
  | text (s : String)
  | str (s : List Nat)
  deriving DecidableEq, Repr

/-- How the process ends: `main` returns, `exit` is called, or a signal
kills it. -/
inductive Outcome
  | returned (status : Nat)
  | exited (status : Nat)
  | killed
  deriving DecidableEq, Repr

/-- The wait status seen by the parent: 0 only after a return of 0 or an
`exit (0)`. -/
def Outcome.status : Outcome → Nat
  | .returned s => s
  | .exited s => s
  | .killed => 139

/-- The status that `exit (v)` or a return of `v` from `main` gives. -/
def toStatus (v : Int) : Nat := (v % 256).toNat

/-- The process while it runs: the globals, what it has handed to `stdout`,
what `getopt_long` has written to standard error, the engine calls made, and
how it ended if it has. -/
structure Proc where
  g : Globals
  out : List Out
  err : List Diag
  calls : List Call
  halt : Option Outcome
  deriving DecidableEq, Repr

/-- The body of the `switch (opt)` of `readcmdline`, for one return of
`getopt_long`.  A `NULL` passed to `memcpy` or read through kills the
process, and so does a `memcpy` that leaves the mapping. -/
def switch_body (env : Env) (s : Proc) (e : Event) : Proc :=
  if s.halt.isSome then s
  else if e.opt = ch 'n' then
    match e.optarg with
    | some p =>
      match memcpy env.LENGTH p with
      | some b => { s with g := { s.g with section_name := b } }
      | none => { s with halt := some .killed }
    | none => { s with halt := some .killed }
  else if e.opt = ch 'z' then
    match e.optarg with
    | some p =>
      if p.getD 0 0 = ch '0' ∧ p.getD 1 0 = ch 'x' then
        { s with g := { s.g with size := toU32 (env.hex2int p) } }
      else
        { s with g := { s.g with size := toU32 (atoi p) } }
    | none => { s with halt := some .killed }
  else if e.opt = ch 'f' then
    match e.optarg with
    | some p =>
      match memcpy env.LENGTH p with
      | some b => { s with g := { s.g with file_name := b } }
      | none => { s with halt := some .killed }
    | none => { s with halt := some .killed }
  else if e.opt = ch 'c' then
    match e.optarg with
    | some p =>
      match memcpy env.LENGTH p with
      | some b => { s with g := { s.g with config_name := b } }
      | none => { s with halt := some .killed }
    | none => { s with halt := some .killed }
  else if e.opt = ch 'a' then
    match e.optarg with
    | some p =>
      match memcpy env.LENGTH p with
      | some b => { s with g := { s.g with arch := b } }
      | none => { s with halt := some .killed }
    | none => { s with halt := some .killed }
  else if e.opt = ch 'o' then
    match e.optarg with
    | some p =>
      if p.getD 0 0 = ch '0' ∧ p.getD 1 0 = ch 'x' then
        { s with g := { s.g with off := toU32 (env.hex2int p) } }
      else
        { s with g := { s.g with off := toU32 (atoi p) } }
    | none => { s with halt := some .killed }
  else if e.opt = ch 'v' then
    match e.optarg with
    | some p =>
      match memcpy env.LENGTH p with
      | some b => { s with g := { s.g with ver := b } }
      | none => { s with halt := some .killed }
    | none => { s with halt := some .killed }
  else if e.opt = ch 'h' then
    match e.optarg with
    | some p =>
      { s with out := s.out ++ [.str (cstr p), .text "\n",
                 .text (if cstr p = lit "Chinese" then help_chinese else help)] }
    | none =>
      match env.printf_null with
      | some t => { s with out := s.out ++ [.text t, .text help] }
      | none => { s with halt := some .killed }
  else s

/-- One turn of the `while` loop of `readcmdline`: the call of `getopt_long`,
which may write a diagnostic, and the `switch`. -/
def loop_body (env : Env) (s : Proc) (e : Event) : Proc :=
  if s.halt.isSome then s
  else switch_body env { s with err := s.err ++ e.diag.toList } e

/-- A call of an engine operation from `readcmdline`. -/
def invoke (env : Env) (s : Proc) (c : Call) : Proc :=
  if s.halt.isSome then s
  else
    match env.engine c with
    | .returned _ => { s with calls := s.calls ++ [c] }
    | .terminated st => { s with calls := s.calls ++ [c], halt := some (.exited st) }

/-- One statement `if (!strcmp (function, word)) op (...);` of `readcmdline`;
`op` gives the call from the globals. -/
def if_function (env : Env) (word : List Nat) (op : Globals → Call) (s : Proc) : Proc :=
  if strcmp_eq env.LENGTH s.g.function word then invoke env s (op s.g) else s

/-- The five `if (!strcmp (function, ...))` statements of `readcmdline`. -/
def dispatch (env : Env) (s : Proc) : Proc :=
  let s := if_function env (lit "addsec")
    (fun g => .add_section g.elf_name g.off g.section_name g.size) s
  let s := if_function env (lit "injectso")
    (fun g => .inject_so g.elf_name g.section_name g.file_name g.config_name g.ver) s
  let s := if_function env (lit "delsec")
    (fun g => .delete_section g.elf_name g.section_name) s
  let s := if_function env (lit "delshtab") (fun g => .delete_shtab g.elf_name) s
  if_function env (lit "parse") (fun g => .parse g.elf_name) s

/-- The function `readcmdline`. -/
def readcmdline (env : Env) (g : Globals) (argv : List Ptr) : Proc :=
  let argc : Int := argv.length
  let s : Proc := ⟨g, if argc = 1 then [.text help] else [], [], [], none⟩
  let r := getopt_loop env.posixly_correct argv
  let s := r.events.foldl (loop_body env) s
  if s.halt.isSome then s
  else if (r.optind : Int) ≠ argc - 2 then
    { s with halt := some (.exited (toStatus (-1))) }
  else
    match memcpy env.LENGTH (r.argv.getD r.optind []) with
    | none => { s with halt := some .killed }
    | some fn =>
      match memcpy env.LENGTH (r.argv.getD (r.optind + 1) []) with
      | none => { s with g := { s.g with function := fn }, halt := some .killed }
      | some en => dispatch env { s with g := { s.g with function := fn, elf_name := en } }

/-- A run of the program: what it handed to `stdout`, what was written to
standard error, the engine calls it made, how it ended. -/
structure Run where
  out : List Out
  err : List Diag
  calls : List Call
  outcome : Outcome
  deriving DecidableEq, Repr

/-- The function `main`. -/
def main (env : Env) (argv : List Ptr) : Run :=
  let s := readcmdline env (init Globals.zero) argv
  ⟨s.out, s.err, s.calls, s.halt.getD (.returned (toStatus 0))⟩

/-- An environment for examples: `LENGTH` is 64, `hex2int` is not used,
every engine operation returns 0, `printf` writes `(null)` for `NULL`. -/
def env0 : Env := ⟨64, fun _ => 0, fun _ => .returned 0, some "(null)\n", false⟩

/-- The bytes of the given words, each followed by its terminator, and then
the bytes `top`. -/
def block (ws : List (List Nat)) (top : List Nat) : List Nat :=
  ws.flatMap (fun w => w ++ [0]) ++ top

/-- The pointers to the given words as they lie one after the other in
memory, `top` being the bytes mapped after the last word. -/
def layout : List (List Nat) → List Nat → List Ptr
  | [], _ => []
  | w :: ws, top => block (w :: ws) top :: layout ws top

/-- What lies after the last argument in the examples: one environment
string, the file name of the program, and the eight zero bytes that end the
stack. -/
def stackTop : List Nat :=
  lit "PATH=/usr/local/sbin:/usr/local/bin:/usr/sbin:/usr/bin:/sbin:/bin" ++ 0 ::
    (lit "./elfspirit" ++ 0 :: List.replicate 8 0)

/-- The same with an empty environment, as under `env -i`. -/
def stackTopBare : List Nat := lit "./elfspirit" ++ 0 :: List.replicate 8 0

/-- The command line made of the given words, as it lies on the stack of the
examples. -/
def cmdline (ws : List String) : List Ptr := layout (ws.map lit) stackTop

/-- The array filled by `memcpy` from `argv[i] + k` in the examples, where
`LENGTH` is 64. -/
def arrayAt (argv : List Ptr) (i k : Nat) : Buf := ((argv.getD i []).drop k).take 64

/-! ## Vocabulary of the statements -/

/-- The arguments given to option `c` on the command line, in order. -/
def optArgs (c : Nat) (evs : List Event) : List Ptr :=
  evs.filterMap (fun e => if e.opt = c then e.optarg else none)

/-- The argument of the last occurrence of option `c`, if there is one. -/
def lastArg (c : Nat) (evs : List Event) : Option Ptr := (optArgs c evs).getLast?

/-- The content of a staging array after the options: the first `LENGTH`
bytes at the argument of the last occurrence of its option, else what it
held before. -/
def stagedBuf (LENGTH : Nat) (c : Nat) (evs : List Event) (old : Buf) : Buf :=
  match lastArg c evs with
  | some p => p.take LENGTH
  | none => old

/-- The number that an argument of `-z` or `-o` denotes for `readcmdline`. -/
def numeral (env : Env) (p : Ptr) : Nat :=
  if p.getD 0 0 = ch '0' ∧ p.getD 1 0 = ch 'x' then toU32 (env.hex2int p) else toU32 (atoi p)

/-- The decimal numeral of a number, as `printf ("%u")` writes it. -/
def decimal (n : Nat) : List Nat := lit (toString n)

/-- The content of `size` or `off` after the options. -/
def stagedNum (env : Env) (c : Nat) (evs : List Event) (old : Nat) : Nat :=
  match lastArg c evs with
  | some p => numeral env p
  | none => old

/-- What the `case 'h'` of the `switch` writes for one event, where it does
not kill the process. -/
def helpWrites (env : Env) (e : Event) : List Out :=
  if e.opt = ch 'h' then
    match e.optarg with
    | some p =>
      [.str (cstr p), .text "\n", .text (if cstr p = lit "Chinese" then help_chinese else help)]
    | none =>
      match env.printf_null with
      | some t => [.text t, .text help]
      | none => []
  else []

/-- What the help options of a command line write, in order. -/
def helpOut (env : Env) (evs : List Event) : List Out := evs.flatMap (helpWrites env)

/-- The diagnostics that `getopt_long` writes for a command line, in order. -/
def diagnostics (evs : List Event) : List Diag := evs.filterMap (fun e => e.diag)

/-- The option copies its argument into an array. -/
def copies (c : Nat) : Bool :=
  c == ch 'n' || c == ch 'f' || c == ch 'c' || c == ch 'a' || c == ch 'v'

/-- The `memcpy` for this event, if it makes one, stays inside the mapping:
`LENGTH` bytes are mapped at the argument. -/
def Event.readable (LENGTH : Nat) (e : Event) : Bool :=
  !copies e.opt ||
    (match e.optarg with
     | some p => decide (LENGTH ≤ p.length)
     | none => true)

/-- At every option argument that is copied into an array, `LENGTH` bytes
are mapped. -/
def copiesReadable (env : Env) (evs : List Event) : Prop :=
  ∀ e ∈ evs, e.readable env.LENGTH = true

/-- The globals after the options, from the globals before. -/
def stagedGlobals (env : Env) (evs : List Event) (g : Globals) : Globals :=
  { section_name := stagedBuf env.LENGTH (ch 'n') evs g.section_name,
    file_name := stagedBuf env.LENGTH (ch 'f') evs g.file_name,
    config_name := stagedBuf env.LENGTH (ch 'c') evs g.config_name,
    arch := stagedBuf env.LENGTH (ch 'a') evs g.arch,
    ver := stagedBuf env.LENGTH (ch 'v') evs g.ver,
    elf_name := g.elf_name,
    function := g.function,
    size := stagedNum env (ch 'z') evs g.size,
    off := stagedNum env (ch 'o') evs g.off }

/-- The engine call that a function word names, if it names one. -/
def request (g : Globals) (w : List Nat) : Option Call :=
  if w = lit "addsec" then some (.add_section g.elf_name g.off g.section_name g.size)
  else if w = lit "injectso" then
    some (.inject_so g.elf_name g.section_name g.file_name g.config_name g.ver)
  else if w = lit "delsec" then some (.delete_section g.elf_name g.section_name)
  else if w = lit "delshtab" then some (.delete_shtab g.elf_name)
  else if w = lit "parse" then some (.parse g.elf_name)
  else none

/-- The help options do not kill the process: `printf` writes a text for
`NULL` on the platform, or every help option on the command line carries an
argument (`-hEnglish`, `--help=Chinese`). -/
def helpRuns (env : Env) (evs : List Event) : Prop :=
  env.printf_null ≠ none ∨ ∀ e ∈ evs, e.opt = ch 'h' → e.optarg ≠ none

/-! ## The options that the help text documents -/

/-- The lines of a text. -/
def splitLines : List Nat → List (List Nat)
  | [] => [[]]
  | c :: cs =>
    if c = 10 then [] :: splitLines cs
    else
      match splitLines cs with
      | l :: ls => (c :: l) :: ls
      | [] => [[c]]

/-- The short and the long option that a line of the help text documents: a
line that reads, after two blanks, `-c, --name` up to `=`, `[` or a blank. -/
def helpEntry : List Nat → Option (Nat × List Nat)
  | 32 :: 32 :: 45 :: c :: 44 :: 32 :: 45 :: 45 :: rest =>
    some (c, rest.takeWhile (fun x => x != 61 && x != 91 && x != 32))
  | _ => none

/-- The options documented by the text `help`. -/
def documented : List (Nat × List Nat) := (splitLines (lit help)).filterMap helpEntry

/-! ## The engine operation `add_section`, from the specification -/

/-- The error kinds of the specification. -/
inductive EngineError
  | FormatError
  | AlignmentError
  | NotFoundError
  | IncompatibleArchError
  | LayoutError
  deriving DecidableEq, Repr

/-- A section header, as far as the specification of `add_section` speaks of
it. -/
structure SectionHeader where
  name : List Nat
  name_offset : Nat
  offset : Nat
  size : Nat
  alloc : Bool
  deriving DecidableEq, Repr

/-- An ELF image, as far as the specification of `add_section` speaks of it. -/
structure ElfImage where
  bytes : List Nat
  strtab : List Nat
  sections : List SectionHeader
  shnum : Nat
  deriving DecidableEq, Repr

/-- Modelled from the spec: the operation `add_section` of the Section Table
Editor (section 4.2), whose source `addsec.c` is not among the sources.  A
non-zero `requested_offset` must be word aligned or the operation fails with
`AlignmentError`; else a zero-filled region of `size` bytes is appended, the
name is appended to the string table, a header without the allocation flag is
appended (at end-of-file when the offset is zero) and the section count grows
by one.  `word` is the word size, which the specification does not fix. -/
def add_section (word : Nat) (img : ElfImage) (name : List Nat) (size requested_offset : Nat) :
    Except EngineError ElfImage :=
  if requested_offset ≠ 0 ∧ requested_offset % word ≠ 0 then .error .AlignmentError
  else
    .ok { bytes := img.bytes ++ List.replicate size 0,
          strtab := img.strtab ++ name ++ [0],
          sections := img.sections ++
            [⟨name, img.strtab.length,
              if requested_offset = 0 then img.bytes.length else requested_offset, size, false⟩],
          shnum := img.shnum + 1 }

/-- Modelled from the spec: the file after an operation (section 7): a
failure is detected before any byte is written, so the file is as before. -/
def file_after (file : ElfImage) (r : Except EngineError ElfImage) : ElfImage :=
  match r with
  | .ok img => img
  | .error _ => file

/-! ## Events and intermediate states -/

/-- An event on which the `switch` does not kill the process: it carries an
argument, or is the return for a bad option, or is a help option where
`printf` writes a text for `NULL`; and its `memcpy`, if any, stays inside the
mapping. -/
def Event.runs (env : Env) (e : Event) : Prop :=
  (e.optarg ≠ none ∨ e.opt = ch '?' ∨ (e.opt = ch 'h' ∧ env.printf_null ≠ none)) ∧
  e.readable env.LENGTH = true

/-- An event as `getopt_long` can return it for the tables of `main.c`: only
`-h` comes without an argument. -/
def Event.wf (e : Event) : Prop := e.optarg ≠ none ∨ e.opt = ch '?' ∨ e.opt = ch 'h'

/-- The state in which `readcmdline` reaches its five tests, when two
non-options remain and nothing has killed the process. -/
def staged (env : Env) (g : Globals) (evs : List Event) (f e : Ptr) : Proc :=
  { g := { stagedGlobals env evs g with
             function := f.take env.LENGTH, elf_name := e.take env.LENGTH },
    out := helpOut env evs, err := diagnostics evs, calls := [], halt := none }

/-- How the process ends after the engine call that `readcmdline` made. -/
def outcomeAfter : EngineResult → Outcome
  | .returned _ => .returned 0
  | .terminated st => .exited st

/-- The events of a command line. -/
abbrev optEvents (env : Env) (argv : List Ptr) : List Event :=
  (getopt_loop env.posixly_correct argv).events

/-- The non-option arguments of a command line. -/
abbrev nonOptions (env : Env) (argv : List Ptr) : List Ptr :=
  (getopt_loop env.posixly_correct argv).nonopts

/-- At every string that `readcmdline` copies into an array, `LENGTH` bytes
are mapped: at the arguments of `-n`, `-f`, `-c`, `-a` and `-v`, and at the
first two non-option arguments. -/
def copiesMapped (env : Env) (argv : List Ptr) : Prop :=
  copiesReadable env (optEvents env argv) ∧
  ∀ a ∈ (nonOptions env argv).take 2, env.LENGTH ≤ a.length

/-- The C strings that an engine operation finds in the arrays it is passed,
in the order of its parameters. -/
def Call.strings (LENGTH : Nat) : Call → List (Option (List Nat))
  | .add_section elf _ name _ => [bufstr LENGTH elf, bufstr LENGTH name]
  | .inject_so elf name so cfg ver =>
    [bufstr LENGTH elf, bufstr LENGTH name, bufstr LENGTH so, bufstr LENGTH cfg,
     bufstr LENGTH ver]
  | .delete_section elf name => [bufstr LENGTH elf, bufstr LENGTH name]
  | .delete_shtab elf => [bufstr LENGTH elf]
  | .parse elf => [bufstr LENGTH elf]

/-! ## Concrete command lines -/

/-- A run of 65 bytes `a`: one byte longer than the arrays of `env0`. -/
def long65 : Ptr := List.replicate 65 (ch 'a')

/-- An environment in which every engine operation returns -1. -/
def envFail : Env := ⟨64, fun _ => 0, fun _ => .returned (-1), some "(null)\n", false⟩

/-- An environment in which `printf ("%s\n", NULL)` kills the process. -/
def envPuts : Env := ⟨64, fun _ => 0, fun _ => .returned 0, none, false⟩

/-- `elfspirit addsec --help=Chinese -n .note a.out` -/
def argvC1 : List Ptr :=
  cmdline ["elfspirit", "addsec", "--help=Chinese", "-n", ".note", "a.out"]

/-- `elfspirit parse aaa...a` with a path of 65 bytes. -/
def argvC1long : List Ptr := layout [lit "elfspirit", lit "parse", long65] stackTop

/-- `env -i ./elfspirit parse a.out`: after the path only the file name of
the program and the end of the stack are mapped. -/
def argvBare : List Ptr := layout [lit "./elfspirit", lit "parse", lit "a.out"] stackTopBare

/-- `elfspirit addsec -n .note -z 4096 a.out` -/
def argvC2 : List Ptr := cmdline ["elfspirit", "addsec", "-n", ".note", "-z", "4096", "a.out"]

/-- `elfspirit addsec -n aaa...a a.out` with a name of 65 bytes. -/
def argvC2long : List Ptr :=
  layout [lit "elfspirit", lit "addsec", lit "-n", long65, lit "a.out"] stackTop

/-- `elfspirit` -/
def argvC4 : List Ptr := cmdline ["elfspirit"]

/-- `elfspirit parse a.out` -/
def argvC5 : List Ptr := cmdline ["elfspirit", "parse", "a.out"]

/-- `elfspirit frobnicate a.out` -/
def argvC5bad : List Ptr := cmdline ["elfspirit", "frobnicate", "a.out"]

/-- `elfspirit addsec -z abc -o -1 a.out` -/
def argvC6 : List Ptr := cmdline ["elfspirit", "addsec", "-z", "abc", "-o", "-1", "a.out"]

/-- `elfspirit delsec a.out` -/
def argvC6del : List Ptr := cmdline ["elfspirit", "delsec", "a.out"]

/-- `elfspirit injectso -n .old -f libdemo.so -c conf.json -v 2.31 -n .inj a.out` -/
def argvC7 : List Ptr :=
  cmdline ["elfspirit", "injectso", "-n", ".old", "-f", "libdemo.so", "-c", "conf.json",
    "-v", "2.31", "-n", ".inj", "a.out"]

/-- `elfspirit injectso -n .inj -f libdemo.so -c conf.json -v 2.31 aaa...a`
with a path of 65 bytes. -/
def argvC7long : List Ptr :=
  layout [lit "elfspirit", lit "injectso", lit "-n", lit ".inj", lit "-f", lit "libdemo.so",
    lit "-c", lit "conf.json", lit "-v", lit "2.31", long65] stackTop

/-- `elfspirit injectso -n .inj -f libdemo.so -c conf.json --version-libc=2.31 a.out` -/
def argvC8long : List Ptr :=
  cmdline ["elfspirit", "injectso", "-n", ".inj", "-f", "libdemo.so", "-c", "conf.json",
    "--version-libc=2.31", "a.out"]

/-- `elfspirit injectso -n .inj -f libdemo.so -c conf.json -v2.31 a.out` -/
def argvC8short : List Ptr :=
  cmdline ["elfspirit", "injectso", "-n", ".inj", "-f", "libdemo.so", "-c", "conf.json",
    "-v2.31", "a.out"]

/-- `elfspirit -h parse a.out` -/
def argvC10 : List Ptr := cmdline ["elfspirit", "-h", "parse", "a.out"]

/-- `elfspirit -x frobnicate a.out` -/
def argvC5x : List Ptr := cmdline ["elfspirit", "-x", "frobnicate", "a.out"]

/-- An environment whose `hex2int` reads `0x1f` as 31. -/
def envHex : Env :=
  ⟨64, fun p => if cstr p = lit "0x1f" then 31 else 0, fun _ => .returned 0, none, false⟩

/-- The process at the start of the option loop. -/
def proc0 : Proc := ⟨init Globals.zero, [], [], [], none⟩

/-! ## Character codes -/

@[simp]
theorem ch_n : ch 'n' = 110 := by decide
@[simp]
theorem ch_z : ch 'z' = 122 := by decide
@[simp]
theorem ch_f : ch 'f' = 102 := by decide
@[simp]
theorem ch_c : ch 'c' = 99 := by decide
@[simp]
theorem ch_a : ch 'a' = 97 := by decide
@[simp]
theorem ch_o : ch 'o' = 111 := by decide
@[simp]
theorem ch_v : ch 'v' = 118 := by decide
@[simp]
theorem ch_h : ch 'h' = 104 := by decide
@[simp]
theorem ch_qm : ch '?' = 63 := by decide
@[simp]
theorem ch_dash : ch '-' = 45 := by decide
@[simp]
theorem ch_eq : ch '=' = 61 := by decide
@[simp]
theorem ch_colon : ch ':' = 58 := by decide
@[simp]
theorem ch_semi : ch ';' = 59 := by decide
@[simp]
theorem ch_0 : ch '0' = 48 := by decide
@[simp]
theorem ch_x : ch 'x' = 120 := by decide

/-! ## Facts about the scan -/

theorem scan_length (posix : Bool) (l : List Ptr) :
    ∀ pend, (scan posix pend l).used.length + (scan posix pend l).nonopts.length = l.length := by
  induction l with
  | nil => intro pend; cases pend <;> simp [scan]
  | cons a rest ih =>
    intro pend
    cases pend with
    | some c => simp only [scan, List.length_cons]; have := ih none; omega
    | none =>
      simp only [scan]
      split_ifs
      · simp; omega
      · simp
      · simp only [List.length_cons]; have := ih none; omega
      · simp only [List.length_cons]; have := ih (longOption (a.drop 2)).pending; omega
      · simp only [List.length_cons]; have := ih (shortCluster (a.drop 1)).pending; omega

theorem strchrOpt_shortopts (c : Nat) (k : Nat) (h : shortLookup c = some k) :
    k = required_argument ∨ (k = optional_argument ∧ c = ch 'h') := by
  unfold shortLookup at h
  split_ifs at h
  have e : shortopts = [110, 58, 122, 58, 102, 58, 99, 58, 97, 58, 111, 58, 118, 58, 104, 58, 58] := by
    decide
  rw [e] at h
  simp only [strchrOpt] at h
  split_ifs at h <;> simp_all [required_argument, optional_argument]

theorem shortCluster_wf (p : Ptr) :
    (∀ e ∈ (shortCluster p).events, e.wf) := by
  induction p with
  | nil => simp [shortCluster]
  | cons c cs ih =>
    rw [shortCluster]
    by_cases h0 : c = 0
    · simp [h0]
    · rw [if_neg h0]
      split
      · intro e he
        simp only [List.mem_cons] at he
        rcases he with rfl | he
        · right; left; rfl
        · exact ih e he
      · rename_i hl
        have := strchrOpt_shortopts c _ hl
        simp [required_argument, optional_argument] at this
      · split_ifs <;> simp [Event.wf]
      · rename_i k h1 h2 hl
        rcases strchrOpt_shortopts c _ hl with h | ⟨_, hc⟩
        · exact absurd h (by simpa [required_argument] using h2)
        · split_ifs <;> simp [Event.wf, hc]

theorem longLookup_mem (table : List LongOption) (name : List Nat) (o : LongOption)
    (h : longLookup table name = .found o) : o ∈ table := by
  unfold longLookup at h
  split at h
  · rename_i o1 hf
    cases h
    exact List.mem_of_find?_eq_some hf
  · split at h
    · cases h
    · rename_i o1 os hf
      split_ifs at h
      cases h
      have : o ∈ table.filter (fun o => name.isPrefixOf o.name) := by rw [hf]; simp
      exact (List.mem_filter.mp this).1

theorem longopts_optional : ∀ o ∈ longopts, o.has_arg ≠ required_argument → o.val = ch 'h' := by
  decide

theorem longOption_wf (p : Ptr) : ∀ e ∈ (longOption p).events, e.wf := by
  unfold longOption
  simp only
  split
  · rename_i o hl
    have hm := longLookup_mem _ _ _ hl
    split_ifs with h1 h2 h3
    · simp [Event.wf]
    · simp [Event.wf, Event.bad]
    · simp
    · have := longopts_optional o hm h3
      simp [Event.wf, this]
  · simp [Event.wf, Event.bad]
  · simp [Event.wf, Event.bad]

theorem scan_wf (posix : Bool) (l : List Ptr) :
    ∀ pend, ∀ e ∈ (scan posix pend l).events, e.wf := by
  induction l with
  | nil => intro pend; cases pend <;> simp [scan, Event.wf, Event.bad]
  | cons a rest ih =>
    intro pend
    cases pend with
    | some c =>
      simp only [scan]
      intro e he
      simp only [List.mem_cons] at he
      rcases he with rfl | he
      · simp [Event.wf]
      · exact ih none e he
    | none =>
      simp only [scan]
      split_ifs
      · simp
      · simp
      · exact ih none
      · intro e he
        simp only [List.mem_append] at he
        rcases he with he | he
        · exact longOption_wf _ e he
        · exact ih _ e he
      · intro e he
        simp only [List.mem_append] at he
        rcases he with he | he
        · exact shortCluster_wf _ e he
        · exact ih _ e he

theorem getopt_loop_wf (posix : Bool) (argv : List Ptr) :
    ∀ e ∈ (getopt_loop posix argv).events, e.wf := by
  cases argv with
  | nil => simp [getopt_loop]
  | cons a rest => exact scan_wf posix rest none

theorem getopt_loop_optind (posix : Bool) (argv : List Ptr) :
    (((getopt_loop posix argv).optind : Int) = (argv.length : Int) - 2) ↔
      (getopt_loop posix argv).nonopts.length = 2 := by
  cases argv with
  | nil => simp [getopt_loop]
  | cons a rest =>
    simp only [getopt_loop, List.length_cons]
    have := scan_length posix rest none
    omega

theorem getopt_loop_argv (posix : Bool) (argv : List Ptr) (f e : Ptr)
    (h : (getopt_loop posix argv).nonopts = [f, e]) :
    (getopt_loop posix argv).argv.getD (getopt_loop posix argv).optind [] = f ∧
    (getopt_loop posix argv).argv.getD ((getopt_loop posix argv).optind + 1) [] = e := by
  cases argv with
  | nil => simp [getopt_loop] at h
  | cons a rest =>
    simp only [getopt_loop] at h ⊢
    rw [h]
    constructor
    · rw [Nat.add_comm 1, List.getD_cons_succ, List.getD_append_right _ _ _ _ (le_refl _)]
      simp
    · rw [Nat.add_comm 1, Nat.add_right_comm, List.getD_cons_succ,
        List.getD_append_right _ _ _ _ (by omega), Nat.add_sub_cancel_left]
      rfl

/-! ## Facts about the option loop -/

theorem optArgs_append (c : Nat) (es : List Event) (e : Event) :
    optArgs c (es ++ [e]) = optArgs c es ++ (if e.opt = c then e.optarg.toList else []) := by
  unfold optArgs
  rw [List.filterMap_append]
  congr 1
  by_cases h : e.opt = c
  · cases ho : e.optarg <;> simp [List.filterMap_cons, h, ho]
  · simp [List.filterMap_cons, h]

theorem lastArg_append (c : Nat) (es : List Event) (e : Event) :
    lastArg c (es ++ [e]) =
      if e.opt = c then (match e.optarg with | some p => some p | none => lastArg c es)
      else lastArg c es := by
  unfold lastArg
  rw [optArgs_append]
  by_cases h : e.opt = c
  · cases ho : e.optarg <;> simp [h, ho]
  · simp [h]

theorem lastArg_nil (c : Nat) : lastArg c [] = none := rfl

theorem stagedBuf_append (L c : Nat) (es : List Event) (e : Event) (old : Buf) :
    stagedBuf L c (es ++ [e]) old = stagedBuf L c [e] (stagedBuf L c es old) := by
  unfold stagedBuf
  have h1 := lastArg_append c [] e
  simp only [List.nil_append, lastArg_nil] at h1
  rw [lastArg_append, h1]
  by_cases h : e.opt = c
  · cases ho : e.optarg <;> simp [h]
  · simp [h]

theorem stagedNum_append (env : Env) (c : Nat) (es : List Event) (e : Event) (old : Nat) :
    stagedNum env c (es ++ [e]) old = stagedNum env c [e] (stagedNum env c es old) := by
  unfold stagedNum
  have h1 := lastArg_append c [] e
  simp only [List.nil_append, lastArg_nil] at h1
  rw [lastArg_append, h1]
  by_cases h : e.opt = c
  · cases ho : e.optarg <;> simp [h]
  · simp [h]

theorem helpOut_append (env : Env) (es : List Event) (e : Event) :
    helpOut env (es ++ [e]) = helpOut env es ++ helpOut env [e] := by
  unfold helpOut
  rw [List.flatMap_append]

theorem diagnostics_append (es : List Event) (e : Event) :
    diagnostics (es ++ [e]) = diagnostics es ++ diagnostics [e] := by
  unfold diagnostics
  rw [List.filterMap_append]

theorem diagnostics_single (e : Event) : diagnostics [e] = e.diag.toList := by
  unfold diagnostics
  cases h : e.diag <;> simp [List.filterMap_cons, h]

theorem memcpy_of_le (L : Nat) (p : Ptr) (h : L ≤ p.length) : memcpy L p = some (p.take L) := by
  unfold memcpy
  rw [if_pos h]

theorem stagedGlobals_append (env : Env) (es : List Event) (e : Event) (g : Globals) :
    stagedGlobals env (es ++ [e]) g = stagedGlobals env [e] (stagedGlobals env es g) := by
  simp only [stagedGlobals, stagedBuf_append _ _ es e, stagedNum_append _ _ es e]

theorem stagedGlobals_nil (env : Env) (g : Globals) : stagedGlobals env [] g = g := rfl

theorem lastArg_single (c : Nat) (e : Event) :
    lastArg c [e] = if e.opt = c then e.optarg else none := by
  have h1 := lastArg_append c [] e
  simp only [List.nil_append, lastArg_nil] at h1
  rw [h1]
  by_cases h : e.opt = c
  · cases ho : e.optarg <;> simp [h]
  · simp [h]

/-- One turn of the loop for an event that does not kill. -/
theorem loop_body_runs (env : Env) (s : Proc) (e : Event)
    (hs : s.halt = none) (he : e.runs env) :
    loop_body env s e =
      { g := stagedGlobals env [e] s.g, out := s.out ++ helpOut env [e],
        err := s.err ++ diagnostics [e], calls := s.calls, halt := none } := by
  obtain ⟨g, out, err, calls, halt⟩ := s
  obtain ⟨g1, g2, g3, g4, g5, g6, g7, g8, g9⟩ := g
  obtain ⟨opt, optarg, diag⟩ := e
  simp only at hs
  subst hs
  obtain ⟨he, hr⟩ := he
  rw [diagnostics_single]
  simp only [loop_body, Option.isSome_none, Bool.false_eq_true, if_false]
  cases optarg with
  | none =>
    have ho : opt = 63 ∨ (opt = 104 ∧ env.printf_null ≠ none) := by
      simpa using he
    rcases ho with ho | ⟨ho, hp⟩
    · subst ho
      simp [switch_body, stagedGlobals, stagedBuf, stagedNum, lastArg_single, helpOut,
        helpWrites]
    · subst ho
      obtain ⟨t, ht⟩ := Option.ne_none_iff_exists'.mp hp
      simp [switch_body, stagedGlobals, stagedBuf, stagedNum, lastArg_single, helpOut,
        helpWrites, ht]
  | some p =>
    have hcopy : copies opt = true → memcpy env.LENGTH p = some (p.take env.LENGTH) := by
      intro hc
      have : env.LENGTH ≤ p.length := by simpa [Event.readable, hc] using hr
      exact memcpy_of_le _ _ this
    simp only [switch_body, stagedGlobals, stagedBuf, stagedNum, lastArg_single, helpOut,
      helpWrites, numeral, ch_n, ch_z, ch_f, ch_c, ch_a, ch_o, ch_v, ch_h, ch_0, ch_x,
      List.flatMap_cons, List.flatMap_nil, List.append_nil]
    by_cases h1 : opt = 110
    · subst h1; simp [hcopy (by decide)]
    by_cases h2 : opt = 122
    · subst h2; simp; split_ifs <;> rfl
    by_cases h3 : opt = 102
    · subst h3; simp [hcopy (by decide)]
    by_cases h4 : opt = 99
    · subst h4; simp [hcopy (by decide)]
    by_cases h5 : opt = 97
    · subst h5; simp [hcopy (by decide)]
    by_cases h6 : opt = 111
    · subst h6; simp; split_ifs <;> rfl
    by_cases h7 : opt = 118
    · subst h7; simp [hcopy (by decide)]
    by_cases h8 : opt = 104
    · subst h8; simp
    simp [h1, h2, h3, h4, h5, h6, h7, h8]

/-- The option loop, when no event kills. -/
theorem loop_runs (env : Env) (evs : List Event) :
    ∀ s : Proc, s.halt = none → (∀ e ∈ evs, e.runs env) →
    evs.foldl (loop_body env) s =
      { g := stagedGlobals env evs s.g, out := s.out ++ helpOut env evs,
        err := s.err ++ diagnostics evs, calls := s.calls, halt := none } := by
  induction evs using List.reverseRecOn with
  | nil =>
    intro s hs _
    obtain ⟨g, out, err, calls, halt⟩ := s
    simp only at hs
    subst hs
    simp [stagedGlobals_nil, helpOut, diagnostics]
  | append_singleton es e ih =>
    intro s hs hall
    rw [List.foldl_append, ih s hs (fun x hx => hall x (by simp [hx]))]
    simp only [List.foldl_cons, List.foldl_nil]
    rw [loop_body_runs env _ e rfl (hall e (by simp))]
    simp only [stagedGlobals_append env es e, helpOut_append env es e,
      diagnostics_append es e, List.append_assoc]

/-- The `switch` makes no engine call and ends the process, if at all, by a
fault. -/
theorem switch_body_calls (env : Env) (s : Proc) (e : Event) :
    (switch_body env s e).calls = s.calls ∧
    ((switch_body env s e).halt = s.halt ∨
      (s.halt = none ∧ (switch_body env s e).halt = some .killed)) := by
  obtain ⟨opt, optarg, diag⟩ := e
  obtain ⟨g, out, err, calls, halt⟩ := s
  cases halt with
  | some o => simp [switch_body]
  | none =>
    simp only [switch_body, ch_n, ch_z, ch_f, ch_c, ch_a, ch_o, ch_v, ch_h]
    cases optarg with
    | none =>
      cases hp : env.printf_null with
      | none =>
        by_cases h1 : opt = 110
        · subst h1; simp
        by_cases h2 : opt = 122
        · subst h2; simp
        by_cases h3 : opt = 102
        · subst h3; simp
        by_cases h4 : opt = 99
        · subst h4; simp
        by_cases h5 : opt = 97
        · subst h5; simp
        by_cases h6 : opt = 111
        · subst h6; simp
        by_cases h7 : opt = 118
        · subst h7; simp
        by_cases h8 : opt = 104
        · subst h8; simp
        simp [h1, h2, h3, h4, h5, h6, h7, h8]
      | some t =>
        by_cases h1 : opt = 110
        · subst h1; simp
        by_cases h2 : opt = 122
        · subst h2; simp
        by_cases h3 : opt = 102
        · subst h3; simp
        by_cases h4 : opt = 99
        · subst h4; simp
        by_cases h5 : opt = 97
        · subst h5; simp
        by_cases h6 : opt = 111
        · subst h6; simp
        by_cases h7 : opt = 118
        · subst h7; simp
        by_cases h8 : opt = 104
        · subst h8; simp
        simp [h1, h2, h3, h4, h5, h6, h7, h8]
    | some p =>
      cases hm : memcpy env.LENGTH p with
      | none =>
        by_cases h1 : opt = 110
        · subst h1; simp [hm]
        by_cases h2 : opt = 122
        · subst h2; simp; split_ifs <;> simp
        by_cases h3 : opt = 102
        · subst h3; simp [hm]
        by_cases h4 : opt = 99
        · subst h4; simp [hm]
        by_cases h5 : opt = 97
        · subst h5; simp [hm]
        by_cases h6 : opt = 111
        · subst h6; simp; split_ifs <;> simp
        by_cases h7 : opt = 118
        · subst h7; simp [hm]
        by_cases h8 : opt = 104
        · subst h8; simp [hm]
        simp [h1, h2, h3, h4, h5, h6, h7, h8]
      | some b =>
        by_cases h1 : opt = 110
        · subst h1; simp [hm]
        by_cases h2 : opt = 122
        · subst h2; simp; split_ifs <;> simp
        by_cases h3 : opt = 102
        · subst h3; simp [hm]
        by_cases h4 : opt = 99
        · subst h4; simp [hm]
        by_cases h5 : opt = 97
        · subst h5; simp [hm]
        by_cases h6 : opt = 111
        · subst h6; simp; split_ifs <;> simp
        by_cases h7 : opt = 118
        · subst h7; simp [hm]
        by_cases h8 : opt = 104
        · subst h8; simp [hm]
        simp [h1, h2, h3, h4, h5, h6, h7, h8]

theorem loop_body_calls (env : Env) (s : Proc) (e : Event) :
    (loop_body env s e).calls = s.calls ∧
    ((loop_body env s e).halt = s.halt ∨
      (s.halt = none ∧ (loop_body env s e).halt = some .killed)) := by
  unfold loop_body
  by_cases h : s.halt.isSome = true
  · simp [h]
  · rw [if_neg h]
    exact switch_body_calls env { s with err := s.err ++ e.diag.toList } e

theorem loop_calls (env : Env) (evs : List Event) :
    ∀ s : Proc, (evs.foldl (loop_body env) s).calls = s.calls ∧
      ((evs.foldl (loop_body env) s).halt = s.halt ∨
        (s.halt = none ∧ (evs.foldl (loop_body env) s).halt = some .killed)) := by
  induction evs with
  | nil => intro s; simp
  | cons e es ih =>
    intro s
    simp only [List.foldl_cons]
    have h1 := ih (loop_body env s e)
    have h2 := loop_body_calls env s e
    refine ⟨by rw [h1.1, h2.1], ?_⟩
    rcases h1.2 with h | ⟨h, h'⟩
    · rcases h2.2 with k | ⟨k, k'⟩
      · left; rw [h, k]
      · right; exact ⟨k, by rw [h, k']⟩
    · rcases h2.2 with k | ⟨k, k'⟩
      · right; exact ⟨by rw [← k]; exact h, h'⟩
      · rw [k'] at h; cases h

/-! ## Facts about numerals -/

theorem toDigitsCore_digits (fuel : Nat) :
    ∀ (n : Nat) (ds : List Char), n < fuel →
    Nat.toDigitsCore 10 fuel n ds =
      (if n = 0 then ['0'] else (Nat.digits 10 n).reverse.map Nat.digitChar) ++ ds := by
  induction fuel with
  | zero => intro n ds h; omega
  | succ fuel ih =>
    intro n ds h
    rw [Nat.toDigitsCore]
    by_cases h0 : n / 10 = 0
    · rw [if_pos h0]
      have hlt : n < 10 := by omega
      by_cases hn : n = 0
      · subst hn; rfl
      · rw [if_neg hn, Nat.digits_of_lt 10 n hn hlt, Nat.mod_eq_of_lt hlt]
        rfl
    · rw [if_neg h0, ih (n / 10) _ (by omega), if_neg h0]
      have hn : n ≠ 0 := by rintro rfl; simp at h0
      rw [if_neg hn, Nat.digits_def' (by norm_num) (Nat.pos_of_ne_zero hn)]
      simp

theorem digitChar_toNat (d : Nat) (h : d < 10) : (Nat.digitChar d).toNat = d + 48 := by
  interval_cases d <;> rfl

theorem decimal_digits (n : Nat) :
    decimal n = if n = 0 then [48] else (Nat.digits 10 n).reverse.map (fun d => d + 48) := by
  have h : decimal n = (Nat.toDigits 10 n).map Char.toNat := rfl
  rw [h, Nat.toDigits, toDigitsCore_digits _ _ _ (Nat.lt_succ_self n), List.append_nil]
  by_cases hn : n = 0
  · subst hn; rfl
  · rw [if_neg hn, if_neg hn, List.map_map]
    apply List.map_congr_left
    intro d hd
    exact digitChar_toNat d (Nat.digits_lt_base (by norm_num) (List.mem_reverse.mp hd))

theorem foldl_digits (l : List Nat) :
    (l.reverse.map (fun d => d + 48)).foldl (fun acc c => acc * 10 + (c - 48)) 0 =
      Nat.ofDigits 10 l := by
  induction l with
  | nil => rfl
  | cons d l ih =>
    rw [List.reverse_cons, List.map_append, List.foldl_append, ih, Nat.ofDigits_cons]
    simp [Nat.mul_comm, Nat.add_comm]

theorem decimal_value (n : Nat) :
    (decimal n).foldl (fun acc c => acc * 10 + (c - 48)) 0 = n := by
  rw [decimal_digits]
  by_cases hn : n = 0
  · subst hn; rfl
  · rw [if_neg hn, foldl_digits, Nat.ofDigits_digits]

theorem decimal_isdigit (n : Nat) : ∀ c ∈ decimal n, isdigit c = true := by
  rw [decimal_digits]
  by_cases hn : n = 0
  · subst hn; simp [isdigit]
  · rw [if_neg hn]
    intro c hc
    obtain ⟨d, hd, rfl⟩ := List.mem_map.mp hc
    have := Nat.digits_lt_base (by norm_num : 1 < 10) (List.mem_reverse.mp hd)
    simp [isdigit]; omega

theorem decimal_ne_nil (n : Nat) : decimal n ≠ [] := by
  rw [decimal_digits]
  by_cases hn : n = 0
  · simp [hn]
  · simp [hn, Nat.digits_ne_nil_iff_ne_zero]

theorem takeWhile_append_zero (P : Nat → Bool) (hP : P 0 = false) (a b : List Nat)
    (ha : ∀ c ∈ a, P c = true) (hb : b.headD 0 = 0) : (a ++ b).takeWhile P = a := by
  induction a with
  | nil =>
    cases b with
    | nil => rfl
    | cons x xs => simp only [List.headD_cons] at hb; subst hb; simp [hP]
  | cons x xs ih =>
    have hx : P x = true := ha x (by simp)
    have := ih (fun c hc => ha c (by simp [hc]))
    rw [List.cons_append, List.takeWhile_cons, hx, this]
    rfl

/-! ## Facts about buffers -/

theorem cstr_append_of_zero (a b : List Nat) (ha : ∀ c ∈ a, c ≠ 0) (hb : b.headD 0 = 0) :
    cstr (a ++ b) = a :=
  takeWhile_append_zero (fun c => c != 0) (by simp) a b (fun c hc => by simpa using ha c hc) hb

theorem cstr_ne_zero (p : Ptr) : ∀ c ∈ cstr p, c ≠ 0 := by
  intro c hc
  have := List.mem_takeWhile_imp hc
  simpa using this

theorem cstr_rest (p : Ptr) : (p.dropWhile (fun c => c != 0)).headD 0 = 0 := by
  induction p with
  | nil => rfl
  | cons x xs ih =>
    rw [List.dropWhile_cons]
    by_cases hx : x = 0
    · simp [hx]
    · simpa [hx] using ih

/-- A string shorter than the array is read back from the array as it was. -/
theorem bufstr_take (L : Nat) (p : Ptr) (h : (cstr p).length < L) :
    bufstr L (p.take L) = some (cstr p) := by
  have hp : p = cstr p ++ p.dropWhile (fun c => c != 0) :=
    (List.takeWhile_append_dropWhile _ p).symm
  set a := cstr p with ha
  set b := p.dropWhile (fun c => c != 0) with hb
  have hz : b.headD 0 = 0 := cstr_rest p
  have hne : ∀ c ∈ a, c ≠ 0 := cstr_ne_zero p
  have hm : p.take L = a ++ b.take (L - a.length) := by
    rw [hp, List.take_append_eq_append_take, List.take_of_length_le (le_of_lt h)]
  have hz2 : (b.take (L - a.length)).headD 0 = 0 := by
    cases hb2 : b with
    | nil => simp
    | cons x xs =>
      rw [hb2] at hz
      simp only [List.headD_cons] at hz
      obtain ⟨k, hk⟩ : ∃ k, L - a.length = k + 1 := ⟨L - a.length - 1, by omega⟩
      rw [hk]
      simp [hz]
  rw [hm]
  unfold bufstr
  rw [cstr_append_of_zero a _ hne hz2]
  have : ((a ++ b.take (L - a.length)).contains 0 ||
      decide ((a ++ b.take (L - a.length)).length < L)) = true := by
    cases hb2 : b with
    | nil => simp; omega
    | cons x xs =>
      rw [hb2] at hz
      simp only [List.headD_cons] at hz
      obtain ⟨k, hk⟩ : ∃ k, L - a.length = k + 1 := ⟨L - a.length - 1, by omega⟩
      rw [hk]
      simp [hz]
  rw [this]
  rfl

/-- An array filled to its last byte with non-zero bytes holds no string. -/
theorem bufstr_take_long (L : Nat) (p : Ptr) (h : L ≤ (cstr p).length) :
    bufstr L (p.take L) = none := by
  have hp : p = cstr p ++ p.dropWhile (fun c => c != 0) :=
    (List.takeWhile_append_dropWhile _ p).symm
  have hm : p.take L = (cstr p).take L := by
    conv_lhs => rw [hp]
    rw [List.take_append_eq_append_take]
    have : L - (cstr p).length = 0 := by omega
    rw [this]; simp
  unfold bufstr
  rw [hm]
  have h1 : ((cstr p).take L).contains 0 = false := by
    rw [Bool.eq_false_iff]
    intro hc
    have hc2 : (0 : Nat) ∈ (cstr p).take L := by simpa using hc
    exact cstr_ne_zero p 0 (List.mem_of_mem_take hc2) rfl
  have h2 : ((cstr p).take L).length = L := by simp [List.length_take]; omega
  rw [h1, h2]
  simp

/-- A pointer is its string followed by bytes that start with the
terminator, if any are listed. -/
theorem ptr_split (p : Ptr) : ∃ rest, p = cstr p ++ rest ∧ rest.headD 0 = 0 :=
  ⟨p.dropWhile (fun c => c != 0), (List.takeWhile_append_dropWhile _ p).symm, cstr_rest p⟩

theorem atoi_decimal (p : Ptr) (n : Nat) (h : cstr p = decimal n) (hn : n < 2 ^ 31) :
    atoi p = n := by
  obtain ⟨rest, hp, hr⟩ := ptr_split p
  rw [h] at hp
  have hdig := decimal_isdigit n
  have hval : digitsValue p = n := by
    unfold digitsValue
    rw [hp, takeWhile_append_zero isdigit (by decide) _ _ hdig hr, decimal_value]
  obtain ⟨c, t, hct⟩ := List.exists_cons_of_ne_nil (decimal_ne_nil n)
  have hc : isdigit c = true := hdig c (by rw [hct]; simp)
  have hc2 : 48 ≤ c ∧ c ≤ 57 := by simpa [isdigit] using hc
  have hsp : isspace c = false := by
    simp only [isspace, Bool.or_eq_false_iff, Bool.and_eq_false_iff, beq_eq_false_iff_ne,
      decide_eq_false_iff_not]
    omega
  have hpc : p = c :: (t ++ rest) := by rw [hp, hct]; rfl
  have hdrop : p.dropWhile isspace = c :: (t ++ rest) := by
    rw [hpc, List.dropWhile_cons, hsp]; rfl
  have hst : strtol10 p = n := by
    unfold strtol10
    rw [hdrop]
    split
    · rename_i q heq; cases heq; omega
    · rename_i q heq; cases heq; omega
    · rw [← hpc, hval]
      have : min n (2 ^ 63 - 1) = n := by
        apply min_eq_left
        have : (2 : Nat) ^ 31 ≤ 2 ^ 63 - 1 := by norm_num
        omega
      rw [this]
  unfold atoi toI32
  rw [hst]
  have : (n : Int) < 2147483648 := by
    have : n < 2147483648 := by simpa using hn
    exact_mod_cast this
  omega

/-- The rule of `-z` and `-o` reads a decimal numeral below 2^31 as its
value. -/
theorem numeral_decimal (env : Env) (p : Ptr) (n : Nat) (h : cstr p = decimal n)
    (hn : n < 2 ^ 31) : numeral env p = n := by
  obtain ⟨rest, hp, hr⟩ := ptr_split p
  rw [h] at hp
  have hdig := decimal_isdigit n
  obtain ⟨c, t, hct⟩ := List.exists_cons_of_ne_nil (decimal_ne_nil n)
  have hx : p.getD 1 0 ≠ 120 := by
    rw [hp, hct]
    cases t with
    | nil =>
      cases rest with
      | nil => simp
      | cons r rs => simp only [List.headD_cons] at hr; subst hr; simp
    | cons c2 t2 =>
      have hc : isdigit c2 = true := hdig c2 (by rw [hct]; simp)
      have hc2 : 48 ≤ c2 ∧ c2 ≤ 57 := by simpa [isdigit] using hc
      simp; omega
  unfold numeral
  rw [if_neg (fun hc => hx (by simpa using hc.2)), atoi_decimal p n h hn]
  unfold toU32
  have : (n : Int) < 4294967296 := by
    have : n < 2147483648 := by simpa using hn
    exact_mod_cast (by omega : n < 4294967296)
  rw [Int.emod_eq_of_lt (by positivity) this]
  simp

/-! ## Facts about the dispatch -/

theorem invoke_g (env : Env) (s : Proc) (c : Call) : (invoke env s c).g = s.g := by
  unfold invoke
  split_ifs
  · rfl
  · split <;> rfl

theorem if_function_ne (env : Env) (word w : List Nat) (op : Globals → Call) (s : Proc)
    (hw : bufstr env.LENGTH s.g.function = some w) (hne : w ≠ word) :
    if_function env word op s = s := by
  simp [if_function, strcmp_eq, hw, hne]

theorem if_function_eq (env : Env) (word : List Nat) (op : Globals → Call) (s : Proc)
    (hw : bufstr env.LENGTH s.g.function = some word) :
    if_function env word op s = invoke env s (op s.g) := by
  simp [if_function, strcmp_eq, hw]

/-- The five tests of `readcmdline` make the call that the function word
names, and no other. -/
theorem dispatch_eq (env : Env) (s : Proc) (w : List Nat)
    (hw : bufstr env.LENGTH s.g.function = some w) :
    dispatch env s = (match request s.g w with
      | some c => invoke env s c
      | none => s) := by
  have e1 : lit "addsec" = [97, 100, 100, 115, 101, 99] := by decide
  have e2 : lit "injectso" = [105, 110, 106, 101, 99, 116, 115, 111] := by decide
  have e3 : lit "delsec" = [100, 101, 108, 115, 101, 99] := by decide
  have e4 : lit "delshtab" = [100, 101, 108, 115, 104, 116, 97, 98] := by decide
  have e5 : lit "parse" = [112, 97, 114, 115, 101] := by decide
  have hi : ∀ c, bufstr env.LENGTH (invoke env s c).g.function = some w := by
    intro c; rw [invoke_g]; exact hw
  unfold dispatch request
  simp only [e1, e2, e3, e4, e5]
  by_cases h1 : w = [97, 100, 100, 115, 101, 99]
  · subst h1
    rw [if_function_eq env _ _ s hw, if_function_ne env _ _ _ _ (hi _) (by decide),
      if_function_ne env _ _ _ _ (hi _) (by decide),
      if_function_ne env _ _ _ _ (hi _) (by decide),
      if_function_ne env _ _ _ _ (hi _) (by decide)]
    simp
  rw [if_function_ne env _ _ _ s hw h1]
  by_cases h2 : w = [105, 110, 106, 101, 99, 116, 115, 111]
  · subst h2
    rw [if_function_eq env _ _ s hw, if_function_ne env _ _ _ _ (hi _) (by decide),
      if_function_ne env _ _ _ _ (hi _) (by decide),
      if_function_ne env _ _ _ _ (hi _) (by decide)]
    simp
  rw [if_function_ne env _ _ _ s hw h2]
  by_cases h3 : w = [100, 101, 108, 115, 101, 99]
  · subst h3
    rw [if_function_eq env _ _ s hw, if_function_ne env _ _ _ _ (hi _) (by decide),
      if_function_ne env _ _ _ _ (hi _) (by decide)]
    simp
  rw [if_function_ne env _ _ _ s hw h3]
  by_cases h4 : w = [100, 101, 108, 115, 104, 116, 97, 98]
  · subst h4
    rw [if_function_eq env _ _ s hw, if_function_ne env _ _ _ _ (hi _) (by decide)]
    simp
  rw [if_function_ne env _ _ _ s hw h4]
  by_cases h5 : w = [112, 97, 114, 115, 101]
  · subst h5
    rw [if_function_eq env _ _ s hw]
    simp
  rw [if_function_ne env _ _ _ s hw h5]
  simp [h1, h2, h3, h4, h5]

theorem runs_of_wf (env : Env) (evs : List Event) (hwf : ∀ e ∈ evs, e.wf)
    (hh : helpRuns env evs) (hr : copiesReadable env evs) : ∀ e ∈ evs, e.runs env := by
  intro e he
  refine ⟨?_, hr e he⟩
  rcases hwf e he with h | h | h
  · exact Or.inl h
  · exact Or.inr (Or.inl h)
  · rcases hh with hp | hh
    · exact Or.inr (Or.inr ⟨h, hp⟩)
    · exact Or.inl (hh e he h)

theorem readcmdline_two (env : Env) (g : Globals) (argv : List Ptr) (f e : Ptr)
    (h2 : nonOptions env argv = [f, e])
    (hh : helpRuns env (optEvents env argv)) (hm : copiesMapped env argv) :
    readcmdline env g argv = dispatch env (staged env g (optEvents env argv) f e) := by
  have hlen : argv.length ≠ 1 := by
    intro h1
    match argv, h1 with
    | [a], _ => simp [nonOptions, getopt_loop, scan] at h2
  have hopt := (getopt_loop_optind env.posixly_correct argv).mpr
    (by show (nonOptions env argv).length = 2; rw [h2]; rfl)
  have hargv := getopt_loop_argv env.posixly_correct argv f e h2
  have hall := runs_of_wf env _ (getopt_loop_wf env.posixly_correct argv) hh hm.1
  have hf : memcpy env.LENGTH f = some (f.take env.LENGTH) :=
    memcpy_of_le _ _ (hm.2 f (by rw [h2]; simp))
  have he : memcpy env.LENGTH e = some (e.take env.LENGTH) :=
    memcpy_of_le _ _ (hm.2 e (by rw [h2]; simp))
  unfold readcmdline
  simp only
  rw [loop_runs env _ _ rfl hall]
  have hl : ¬ ((argv.length : Int) = 1) := by exact_mod_cast hlen
  simp only [hl, if_false, Option.isSome_none, Bool.false_eq_true, hopt, ne_eq,
    not_true_eq_false, hargv.1, hargv.2, List.nil_append, hf, he]
  rfl

theorem main_two_some (env : Env) (argv : List Ptr) (f e : Ptr) (c : Call)
    (h2 : nonOptions env argv = [f, e])
    (hh : helpRuns env (optEvents env argv)) (hm : copiesMapped env argv)
    (hf : (cstr f).length < env.LENGTH)
    (hc : request (staged env (init Globals.zero) (optEvents env argv) f e).g (cstr f) =
      some c) :
    main env argv =
      ⟨helpOut env (optEvents env argv), diagnostics (optEvents env argv), [c],
        outcomeAfter (env.engine c)⟩ := by
  unfold main
  simp only
  rw [readcmdline_two env _ argv f e h2 hh hm,
    dispatch_eq env _ (cstr f) (by simpa [staged] using bufstr_take env.LENGTH f hf), hc]
  simp only [invoke, staged, Option.isSome_none, Bool.false_eq_true, if_false]
  cases env.engine c <;> simp [outcomeAfter, toStatus]

theorem main_two_none (env : Env) (argv : List Ptr) (f e : Ptr)
    (h2 : nonOptions env argv = [f, e])
    (hh : helpRuns env (optEvents env argv)) (hm : copiesMapped env argv)
    (hf : (cstr f).length < env.LENGTH)
    (hc : request (staged env (init Globals.zero) (optEvents env argv) f e).g (cstr f) =
      none) :
    main env argv =
      ⟨helpOut env (optEvents env argv), diagnostics (optEvents env argv), [],
        .returned 0⟩ := by
  unfold main
  simp only
  rw [readcmdline_two env _ argv f e h2 hh hm,
    dispatch_eq env _ (cstr f) (by simpa [staged] using bufstr_take env.LENGTH f hf), hc]
  simp [staged, toStatus]

theorem dispatch_none (env : Env) (s : Proc)
    (hw : bufstr env.LENGTH s.g.function = none) : dispatch env s = s := by
  simp [dispatch, if_function, strcmp_eq, hw]

theorem main_two_long (env : Env) (argv : List Ptr) (f e : Ptr)
    (h2 : nonOptions env argv = [f, e])
    (hh : helpRuns env (optEvents env argv)) (hm : copiesMapped env argv)
    (hf : env.LENGTH ≤ (cstr f).length) :
    main env argv =
      ⟨helpOut env (optEvents env argv), diagnostics (optEvents env argv), [],
        .returned 0⟩ := by
  unfold main
  simp only
  rw [readcmdline_two env _ argv f e h2 hh hm,
    dispatch_none env _ (by simpa [staged] using bufstr_take_long env.LENGTH f hf)]
  simp [staged, toStatus]

theorem lit_lengths :
    (lit "addsec").length = 6 ∧ (lit "injectso").length = 8 ∧ (lit "delsec").length = 6 ∧
    (lit "delshtab").length = 8 ∧ (lit "parse").length = 5 := by decide

theorem lastArg_none_of_absent (c : Nat) (evs : List Event) (h : ∀ e ∈ evs, e.opt ≠ c) :
    lastArg c evs = none := by
  have : optArgs c evs = [] := by
    unfold optArgs
    induction evs with
    | nil => rfl
    | cons e es ih =>
      rw [List.filterMap_cons, if_neg (h e (by simp))]
      exact ih (fun x hx => h x (by simp [hx]))
  unfold lastArg
  rw [this]
  rfl

theorem stagedNum_absent (env : Env) (c : Nat) (evs : List Event) (old : Nat)
    (h : ∀ e ∈ evs, e.opt ≠ c) : stagedNum env c evs old = old := by
  unfold stagedNum
  rw [lastArg_none_of_absent c evs h]

theorem stagedBuf_absent (L : Nat) (c : Nat) (evs : List Event) (old : Buf)
    (h : ∀ e ∈ evs, e.opt ≠ c) : stagedBuf L c evs old = old := by
  unfold stagedBuf
  rw [lastArg_none_of_absent c evs h]

theorem stagedBuf_last (L : Nat) (c : Nat) (evs : List Event) (old : Buf) (p : Ptr)
    (h : lastArg c evs = some p) :
    stagedBuf L c evs old = p.take L ∧
    ((cstr p).length < L → bufstr L (stagedBuf L c evs old) = some (cstr p)) := by
  have : stagedBuf L c evs old = p.take L := by unfold stagedBuf; rw [h]
  exact ⟨this, fun hl => by rw [this]; exact bufstr_take L p hl⟩

theorem stagedNum_last (env : Env) (c : Nat) (evs : List Event) (old : Nat) (p : Ptr)
    (h : lastArg c evs = some p) : stagedNum env c evs old = numeral env p := by
  unfold stagedNum; rw [h]

theorem addsec_calls (env : Env) (argv : List Ptr) (f e : Ptr) (hL : 8 < env.LENGTH)
    (h2 : nonOptions env argv = [f, e]) (hh : helpRuns env (optEvents env argv))
    (hm : copiesMapped env argv) (hf : cstr f = lit "addsec") :
    (main env argv).calls =
      [.add_section (e.take env.LENGTH) (stagedNum env (ch 'o') (optEvents env argv) 0)
        (stagedBuf env.LENGTH (ch 'n') (optEvents env argv) [])
        (stagedNum env (ch 'z') (optEvents env argv) 0)] := by
  rw [main_two_some env argv f e _ h2 hh hm (by rw [hf, lit_lengths.1]; omega)
    (by rw [hf]; rfl)]
  rfl

theorem injectso_calls (env : Env) (argv : List Ptr) (f e : Ptr) (hL : 8 < env.LENGTH)
    (h2 : nonOptions env argv = [f, e]) (hh : helpRuns env (optEvents env argv))
    (hm : copiesMapped env argv) (hf : cstr f = lit "injectso") :
    (main env argv).calls =
      [.inject_so (e.take env.LENGTH)
        (stagedBuf env.LENGTH (ch 'n') (optEvents env argv) [])
        (stagedBuf env.LENGTH (ch 'f') (optEvents env argv) [])
        (stagedBuf env.LENGTH (ch 'c') (optEvents env argv) [])
        (stagedBuf env.LENGTH (ch 'v') (optEvents env argv) [])] := by
  rw [main_two_some env argv f e _ h2 hh hm (by rw [hf, lit_lengths.2.1]; omega)
    (by rw [hf]; rfl)]
  rfl

theorem delsec_calls (env : Env) (argv : List Ptr) (f e : Ptr) (hL : 8 < env.LENGTH)
    (h2 : nonOptions env argv = [f, e]) (hh : helpRuns env (optEvents env argv))
    (hm : copiesMapped env argv) (hf : cstr f = lit "delsec") :
    (main env argv).calls =
      [.delete_section (e.take env.LENGTH)
        (stagedBuf env.LENGTH (ch 'n') (optEvents env argv) [])] := by
  rw [main_two_some env argv f e _ h2 hh hm (by rw [hf, lit_lengths.2.2.1]; omega)
    (by rw [hf]; rfl)]
  rfl

/-- Where the function word or the ELF path has fewer than `LENGTH` mapped
bytes after its start, the copy into the array leaves the mapping: the
process is killed and no operation is invoked. -/
theorem unmapped_copy_kills (env : Env) (argv : List Ptr) (f e : Ptr)
    (h2 : nonOptions env argv = [f, e])
    (hu : f.length < env.LENGTH ∨ e.length < env.LENGTH) :
    (main env argv).calls = [] ∧ (main env argv).outcome = .killed := by
  have hopt := (getopt_loop_optind env.posixly_correct argv).mpr
    (by show (nonOptions env argv).length = 2; rw [h2]; rfl)
  have hargv := getopt_loop_argv env.posixly_correct argv f e h2
  have key : (readcmdline env (init Globals.zero) argv).calls = [] ∧
      (readcmdline env (init Globals.zero) argv).halt = some .killed := by
    unfold readcmdline
    simp only
    have hloop := loop_calls env (optEvents env argv)
      ⟨init Globals.zero, if (argv.length : Int) = 1 then [.text help] else [], [], [], none⟩
    generalize hS : List.foldl (loop_body env) _ _ = S at hloop ⊢
    simp only at hloop
    rcases hloop.2 with hk | ⟨_, hk⟩
    · simp only [hk, Option.isSome_none, Bool.false_eq_true, if_false, hopt, ne_eq,
        not_true_eq_false, hargv.1, hargv.2]
      by_cases hf : env.LENGTH ≤ f.length
      · have he : ¬ env.LENGTH ≤ e.length := by
          rcases hu with h | h <;> omega
        simp [memcpy, hf, he, hloop.1]
      · simp [memcpy, hf, hloop.1]
    · simp [hk, hloop.1]
  unfold main
  simp [key.1, key.2]

/-! ## The claims -/

/-- C1 (as amended): for every command line that leaves exactly two
non-option arguments, the function word and an ELF path shorter than `LENGTH`
bytes, on which the help options do not kill the process and `LENGTH` bytes
are mapped at every string copied, `readcmdline` makes exactly one engine call
when the function word is one of the five: the operation that the word names,
with the array that holds the ELF path as its ELF-path argument; for any
other function word it makes no engine call. -/
theorem C1_one_operation (env : Env) (argv : List Ptr) (f e : Ptr)
    (hL : 8 < env.LENGTH)
    (h2 : nonOptions env argv = [f, e])
    (hh : helpRuns env (optEvents env argv))
    (hm : copiesMapped env argv)
    (he : (cstr e).length < env.LENGTH) :
    bufstr env.LENGTH (e.take env.LENGTH) = some (cstr e) ∧
    (cstr f = lit "addsec" → ∃ off name size,
      (main env argv).calls = [.add_section (e.take env.LENGTH) off name size]) ∧
    (cstr f = lit "injectso" → ∃ name so cfg ver,
      (main env argv).calls = [.inject_so (e.take env.LENGTH) name so cfg ver]) ∧
    (cstr f = lit "delsec" → ∃ name,
      (main env argv).calls = [.delete_section (e.take env.LENGTH) name]) ∧
    (cstr f = lit "delshtab" → (main env argv).calls = [.delete_shtab (e.take env.LENGTH)]) ∧
    (cstr f = lit "parse" → (main env argv).calls = [.parse (e.take env.LENGTH)]) ∧
    (cstr f ≠ lit "addsec" → cstr f ≠ lit "injectso" → cstr f ≠ lit "delsec" →
      cstr f ≠ lit "delshtab" → cstr f ≠ lit "parse" → (main env argv).calls = []) := by
  obtain ⟨l1, l2, l3, l4, l5⟩ := lit_lengths
  refine ⟨bufstr_take _ _ he, ?_, ?_, ?_, ?_, ?_, ?_⟩
  · intro hw
    exact ⟨_, _, _, addsec_calls env argv f e hL h2 hh hm hw⟩
  · intro hw
    exact ⟨_, _, _, _, injectso_calls env argv f e hL h2 hh hm hw⟩
  · intro hw
    exact ⟨_, delsec_calls env argv f e hL h2 hh hm hw⟩
  · intro hw
    rw [main_two_some env argv f e _ h2 hh hm (by rw [hw]; omega) (by rw [hw]; rfl)]
    rfl
  · intro hw
    rw [main_two_some env argv f e _ h2 hh hm (by rw [hw]; omega) (by rw [hw]; rfl)]
    rfl
  · intro n1 n2 n3 n4 n5
    by_cases hf : (cstr f).length < env.LENGTH
    · rw [main_two_none env argv f e h2 hh hm hf (by simp [request, n1, n2, n3, n4, n5])]
    · rw [main_two_long env argv f e h2 hh hm (by omega)]

/-- C4: for every command line whose number of non-option arguments is not
two, no engine operation is invoked and the process ends with a non-zero
status; with no argument at all the help text is written first. -/
theorem C4_wrong_arity (env : Env) (argv : List Ptr)
    (h : (nonOptions env argv).length ≠ 2) :
    (main env argv).calls = [] ∧ (main env argv).outcome.status ≠ 0 ∧
    (argv.length = 1 →
      (main env argv).out = [.text help] ∧ (main env argv).outcome = .exited 255) := by
  have hopt := mt (getopt_loop_optind env.posixly_correct argv).mp h
  have key : (readcmdline env (init Globals.zero) argv).calls = [] ∧
      ((readcmdline env (init Globals.zero) argv).halt = some .killed ∨
       (readcmdline env (init Globals.zero) argv).halt = some (.exited 255)) := by
    unfold readcmdline
    simp only
    have hloop := loop_calls env (optEvents env argv)
      ⟨init Globals.zero, if (argv.length : Int) = 1 then [.text help] else [], [], [], none⟩
    generalize hS : List.foldl (loop_body env) _ _ = S at hloop ⊢
    simp only at hloop
    rcases hloop.2 with hk | ⟨_, hk⟩
    · simp [hk, hopt, hloop.1, toStatus]
    · simp [hk, hloop.1]
  refine ⟨key.1, ?_, ?_⟩
  · unfold main
    rcases key.2 with hk | hk <;> simp [hk, Outcome.status]
  · intro h1
    match argv, h1 with
    | [a], _ =>
      simp [main, readcmdline, getopt_loop, scan, toStatus]

/-- C2 (as amended): for every addsec command line on which the help options
do not kill the process and `LENGTH` bytes are mapped at every string copied,
`add_section` is called once, with the first `LENGTH` bytes at the last `-n`
argument as the section name (the name itself when it is shorter than
`LENGTH` bytes), the number of the last `-z` argument as the size and the
number of the last `-o` argument as the offset; the offset is 0 when there is
no `-o`, the size is 0 when there is no `-z`. -/
theorem C2_addsec_arguments (env : Env) (argv : List Ptr) (f e : Ptr) (hL : 8 < env.LENGTH)
    (h2 : nonOptions env argv = [f, e]) (hh : helpRuns env (optEvents env argv))
    (hm : copiesMapped env argv) (hf : cstr f = lit "addsec") :
    ∃ off name size,
      (main env argv).calls = [.add_section (e.take env.LENGTH) off name size] ∧
      (∀ p, lastArg (ch 'n') (optEvents env argv) = some p →
        name = p.take env.LENGTH ∧
        ((cstr p).length < env.LENGTH → bufstr env.LENGTH name = some (cstr p))) ∧
      (∀ p, lastArg (ch 'z') (optEvents env argv) = some p → size = numeral env p) ∧
      (∀ p, lastArg (ch 'o') (optEvents env argv) = some p → off = numeral env p) ∧
      ((∀ ev ∈ optEvents env argv, ev.opt ≠ ch 'o') → off = 0) ∧
      ((∀ ev ∈ optEvents env argv, ev.opt ≠ ch 'z') → size = 0) :=
  ⟨_, _, _, addsec_calls env argv f e hL h2 hh hm hf,
    fun p hp => stagedBuf_last _ _ _ _ p hp,
    fun p hp => stagedNum_last _ _ _ _ p hp,
    fun p hp => stagedNum_last _ _ _ _ p hp,
    fun h => stagedNum_absent _ _ _ _ h,
    fun h => stagedNum_absent _ _ _ _ h⟩

/-- C3: an argument of `-z` that is the decimal numeral of `n < 2^31` stores
`n` in `size`, and likewise `-o` in `off`; an argument that starts with `0x`
goes to `hex2int`, whose result (reduced to 32 bits) is stored, so `n` is
stored when `hex2int` returns `n < 2^32`; the two options follow one rule. -/
theorem C3_numeric_arguments (env : Env) (s : Proc) (p : Ptr) (n : Nat) (hs : s.halt = none) :
    (cstr p = decimal n → n < 2 ^ 31 →
      (switch_body env s ⟨ch 'z', some p, none⟩).g.size = n ∧
      (switch_body env s ⟨ch 'o', some p, none⟩).g.off = n) ∧
    (p.getD 0 0 = ch '0' → p.getD 1 0 = ch 'x' →
      (switch_body env s ⟨ch 'z', some p, none⟩).g.size = toU32 (env.hex2int p) ∧
      (switch_body env s ⟨ch 'o', some p, none⟩).g.off = toU32 (env.hex2int p) ∧
      (env.hex2int p = n → n < 2 ^ 32 →
        (switch_body env s ⟨ch 'z', some p, none⟩).g.size = n ∧
        (switch_body env s ⟨ch 'o', some p, none⟩).g.off = n)) ∧
    (switch_body env s ⟨ch 'z', some p, none⟩).g.size =
      (switch_body env s ⟨ch 'o', some p, none⟩).g.off := by
  have hz : (switch_body env s ⟨ch 'z', some p, none⟩).g.size = numeral env p := by
    simp only [switch_body, hs, numeral, ch_n, ch_z, ch_0, ch_x]
    simp
    split_ifs <;> rfl
  have ho : (switch_body env s ⟨ch 'o', some p, none⟩).g.off = numeral env p := by
    simp only [switch_body, hs, numeral, ch_n, ch_z, ch_f, ch_c, ch_a, ch_o, ch_0, ch_x]
    simp
    split_ifs <;> rfl
  rw [hz, ho]
  refine ⟨fun h hn => ?_, fun h0 h1 => ?_, rfl⟩
  · rw [numeral_decimal env p n h hn]; exact ⟨rfl, rfl⟩
  · have hx : numeral env p = toU32 (env.hex2int p) := by
      unfold numeral; rw [if_pos ⟨h0, h1⟩]
    rw [hx]
    refine ⟨rfl, rfl, fun hv hn => ?_⟩
    rw [hv]
    unfold toU32
    have : (n : Int) < 4294967296 := by
      have : n < 4294967296 := by simpa using hn
      exact_mod_cast this
    rw [Int.emod_eq_of_lt (by positivity) this]
    simp

/-- C7 (as amended): for every injectso command line on which the help
options do not kill the process and `LENGTH` bytes are mapped at every string
copied, `inject_so` is called once, with the array that holds the ELF path
(the path itself when it is shorter than `LENGTH` bytes) and, for the section
name, the donor path, the configuration path and the version, the first
`LENGTH` bytes at the last argument of `-n`, `-f`, `-c` and `-v` (the
argument itself when it is shorter than `LENGTH` bytes); an option that is
absent leaves its array empty. -/
theorem C7_injectso_arguments (env : Env) (argv : List Ptr) (f e : Ptr) (hL : 8 < env.LENGTH)
    (h2 : nonOptions env argv = [f, e]) (hh : helpRuns env (optEvents env argv))
    (hm : copiesMapped env argv) (hf : cstr f = lit "injectso") :
    ∃ name so cfg ver,
      (main env argv).calls = [.inject_so (e.take env.LENGTH) name so cfg ver] ∧
      ((cstr e).length < env.LENGTH →
        bufstr env.LENGTH (e.take env.LENGTH) = some (cstr e)) ∧
      (∀ p, lastArg (ch 'n') (optEvents env argv) = some p →
        name = p.take env.LENGTH ∧
        ((cstr p).length < env.LENGTH → bufstr env.LENGTH name = some (cstr p))) ∧
      (∀ p, lastArg (ch 'f') (optEvents env argv) = some p →
        so = p.take env.LENGTH ∧
        ((cstr p).length < env.LENGTH → bufstr env.LENGTH so = some (cstr p))) ∧
      (∀ p, lastArg (ch 'c') (optEvents env argv) = some p →
        cfg = p.take env.LENGTH ∧
        ((cstr p).length < env.LENGTH → bufstr env.LENGTH cfg = some (cstr p))) ∧
      (∀ p, lastArg (ch 'v') (optEvents env argv) = some p →
        ver = p.take env.LENGTH ∧
        ((cstr p).length < env.LENGTH → bufstr env.LENGTH ver = some (cstr p))) ∧
      ((∀ ev ∈ optEvents env argv, ev.opt ≠ ch 'n') → name = []) ∧
      ((∀ ev ∈ optEvents env argv, ev.opt ≠ ch 'f') → so = []) ∧
      ((∀ ev ∈ optEvents env argv, ev.opt ≠ ch 'c') → cfg = []) ∧
      ((∀ ev ∈ optEvents env argv, ev.opt ≠ ch 'v') → ver = []) :=
  ⟨_, _, _, _, injectso_calls env argv f e hL h2 hh hm hf,
    fun he => bufstr_take _ _ he,
    fun p hp => stagedBuf_last _ _ _ _ p hp,
    fun p hp => stagedBuf_last _ _ _ _ p hp,
    fun p hp => stagedBuf_last _ _ _ _ p hp,
    fun p hp => stagedBuf_last _ _ _ _ p hp,
    fun h => stagedBuf_absent _ _ _ _ h,
    fun h => stagedBuf_absent _ _ _ _ h,
    fun h => stagedBuf_absent _ _ _ _ h,
    fun h => stagedBuf_absent _ _ _ _ h⟩

/-- C5 (as amended): on a command line that leaves two non-option arguments,
on which the help options do not kill the process and `LENGTH` bytes are
mapped at every string copied, `readcmdline` writes no text of its own about
an error: standard output holds what the help options write, standard error
the diagnostics of `getopt_long`, and nothing else.  So a function word that
is none of the five invokes nothing and `main` returns 0; and when the
operation invoked returns, whatever its result, `main` returns 0. -/
theorem C5_no_error_report (env : Env) (argv : List Ptr) (f e : Ptr) (_hL : 8 < env.LENGTH)
    (h2 : nonOptions env argv = [f, e]) (hh : helpRuns env (optEvents env argv))
    (hm : copiesMapped env argv) :
    (cstr f ≠ lit "addsec" → cstr f ≠ lit "injectso" → cstr f ≠ lit "delsec" →
      cstr f ≠ lit "delshtab" → cstr f ≠ lit "parse" →
      main env argv =
        ⟨helpOut env (optEvents env argv), diagnostics (optEvents env argv), [],
          .returned 0⟩) ∧
    (∀ c v, (main env argv).calls = [c] → env.engine c = .returned v →
      (main env argv).out = helpOut env (optEvents env argv) ∧
      (main env argv).err = diagnostics (optEvents env argv) ∧
      (main env argv).outcome = .returned 0) := by
  by_cases hf : (cstr f).length < env.LENGTH
  · constructor
    · intro n1 n2 n3 n4 n5
      exact main_two_none env argv f e h2 hh hm hf (by simp [request, n1, n2, n3, n4, n5])
    · intro c v hc hv
      cases hr : request (staged env (init Globals.zero) (optEvents env argv) f e).g (cstr f) with
      | none =>
        rw [main_two_none env argv f e h2 hh hm hf hr] at hc
        simp at hc
      | some c1 =>
        rw [main_two_some env argv f e c1 h2 hh hm hf hr] at hc ⊢
        simp only [List.cons.injEq, and_true] at hc
        subst hc
        rw [hv]
        exact ⟨rfl, rfl, rfl⟩
  · have hml := main_two_long env argv f e h2 hh hm (by omega)
    constructor
    · intro _ _ _ _ _
      exact hml
    · intro c v hc
      rw [hml] at hc
      simp at hc

/-- C6 (as amended): the front end forwards without validating.  On an
addsec command line (on which the help options do not kill the process and
`LENGTH` bytes are mapped at every string copied) `add_section` is invoked
whatever the arguments of `-z` and `-o` are, with the numbers that the rule of
C3 gives (0 for `abc`, 2^32 - 1 for `-1`); and `add_section`,
`delete_section` and `inject_so` are invoked with an empty section name when
there is no `-n`. -/
theorem C6_no_validation (env : Env) (argv : List Ptr) (f e : Ptr) (hL : 8 < env.LENGTH)
    (h2 : nonOptions env argv = [f, e]) (hh : helpRuns env (optEvents env argv))
    (hm : copiesMapped env argv) :
    (cstr f = lit "addsec" → ∃ off name size,
      (main env argv).calls = [.add_section (e.take env.LENGTH) off name size] ∧
      (∀ p, lastArg (ch 'z') (optEvents env argv) = some p → size = numeral env p) ∧
      (∀ p, lastArg (ch 'o') (optEvents env argv) = some p → off = numeral env p) ∧
      ((∀ ev ∈ optEvents env argv, ev.opt ≠ ch 'n') → name = [])) ∧
    (cstr f = lit "delsec" → ∃ name,
      (main env argv).calls = [.delete_section (e.take env.LENGTH) name] ∧
      ((∀ ev ∈ optEvents env argv, ev.opt ≠ ch 'n') → name = [])) ∧
    (cstr f = lit "injectso" → ∃ name so cfg ver,
      (main env argv).calls = [.inject_so (e.take env.LENGTH) name so cfg ver] ∧
      ((∀ ev ∈ optEvents env argv, ev.opt ≠ ch 'n') → name = [])) ∧
    numeral env (lit "abc") = 0 ∧ numeral env (lit "-1") = 4294967295 := by
  refine ⟨fun hf => ?_, fun hf => ?_, fun hf => ?_, ?_, ?_⟩
  · exact ⟨_, _, _, addsec_calls env argv f e hL h2 hh hm hf,
      fun p hp => stagedNum_last _ _ _ _ p hp,
      fun p hp => stagedNum_last _ _ _ _ p hp,
      fun h => stagedBuf_absent _ _ _ _ h⟩
  · exact ⟨_, delsec_calls env argv f e hL h2 hh hm hf, fun h => stagedBuf_absent _ _ _ _ h⟩
  · exact ⟨_, _, _, _, injectso_calls env argv f e hL h2 hh hm hf,
      fun h => stagedBuf_absent _ _ _ _ h⟩
  · unfold numeral; rw [if_neg (by decide)]; decide
  · unfold numeral; rw [if_neg (by decide)]; decide


/-! ## The claims at concrete command lines -/

set_option maxRecDepth 20000

/-- With an empty environment fewer than 64 bytes are mapped after the words
of `./elfspirit parse a.out`: the copy of the function word leaves the
mapping, the process is killed and `parse` is not invoked. -/
theorem bare_environment_kills :
    (nonOptions env0 argvBare).map cstr = [lit "parse", lit "a.out"] ∧
    (nonOptions env0 argvBare).map List.length = [32, 26] ∧
    main env0 argvBare = ⟨[], [], [], .killed⟩ := by
  decide

/-- C1 at `elfspirit addsec --help=Chinese -n .note a.out`. -/
theorem C1_one_operation_witness :
    (nonOptions env0 argvC1).map cstr = [lit "addsec", lit "a.out"] ∧
    ∃ off name size,
      (main env0 argvC1).calls = [.add_section (arrayAt argvC1 5 0) off name size] ∧
      bufstr 64 (arrayAt argvC1 5 0) = some (lit "a.out") :=
  have h := C1_one_operation env0 argvC1 (argvC1.getD 1 []) (argvC1.getD 5 []) (by decide)
    (by decide) (by unfold helpRuns; decide)
    (by unfold copiesMapped copiesReadable; decide) (by decide)
  ⟨by decide,
   (h.2.1 (by decide)).elim fun off r => r.elim fun name r => r.elim fun size hc =>
     ⟨off, name, size, hc, h.1⟩⟩

/-- C1 as stated fails: with a path of 65 bytes the one call made is `parse`
on an array that holds the first 64 bytes and no terminator, so that the path
passed is not the second non-option argument; and with the function word
`frobnicate` two non-option arguments remain and no operation is invoked. -/
theorem C1_long_path_counterexample :
    (nonOptions env0 argvC1long).map cstr = [lit "parse", long65] ∧
    (main env0 argvC1long).calls = [.parse (List.replicate 64 (ch 'a'))] ∧
    (¬ ∃ b, (main env0 argvC1long).calls = [.parse b] ∧ bufstr 64 b = some long65) ∧
    (nonOptions env0 argvC5bad).map cstr = [lit "frobnicate", lit "a.out"] ∧
    (main env0 argvC5bad).calls = [] := by
  have hc : (main env0 argvC1long).calls = [.parse (List.replicate 64 (ch 'a'))] := by decide
  refine ⟨by decide, hc, ?_, by decide, by decide⟩
  rintro ⟨b, hb, hs⟩
  rw [hc] at hb
  simp only [List.cons.injEq, Call.parse.injEq, and_true] at hb
  subst hb
  revert hs
  decide

/-- C2 at `elfspirit addsec -n .note -z 4096 a.out`. -/
theorem C2_addsec_arguments_witness :
    (nonOptions env0 argvC2).map cstr = [lit "addsec", lit "a.out"] ∧
    ∃ off name size,
      (main env0 argvC2).calls = [.add_section (arrayAt argvC2 6 0) off name size] ∧
      bufstr 64 (arrayAt argvC2 6 0) = some (lit "a.out") ∧
      bufstr 64 name = some (lit ".note") ∧ size = 4096 ∧ off = 0 := by
  obtain ⟨off, name, size, hc, hn, hz, _, ho0, _⟩ :=
    C2_addsec_arguments env0 argvC2 (argvC2.getD 1 []) (argvC2.getD 6 []) (by decide)
      (by decide) (by unfold helpRuns; decide)
      (by unfold copiesMapped copiesReadable; decide) (by decide)
  refine ⟨by decide, off, name, size, hc, by decide, ?_, ?_, ho0 (by decide)⟩
  · exact (hn (argvC2.getD 3 []) (by decide)).2 (by decide)
  · rw [hz (argvC2.getD 5 []) (by decide)]
    decide

/-- C2 as stated fails: with a section name of 65 bytes `add_section` gets an
array that holds the first 64 bytes and no terminator, not the name given. -/
theorem C2_long_name_counterexample :
    (nonOptions env0 argvC2long).map cstr = [lit "addsec", lit "a.out"] ∧
    (lastArg (ch 'n') (optEvents env0 argvC2long)).map cstr = some long65 ∧
    (main env0 argvC2long).calls =
      [.add_section (arrayAt argvC2long 4 0) 0 (List.replicate 64 (ch 'a')) 0] ∧
    bufstr 64 (List.replicate 64 (ch 'a')) = none := by
  decide

/-- C3 at the arguments `4096` (followed in memory by `a.out`) and `0x1f`. -/
theorem C3_numeric_arguments_witness :
    cstr (lit "4096" ++ 0 :: lit "a.out") = decimal 4096 ∧
    (switch_body envHex proc0 ⟨ch 'z', some (lit "4096" ++ 0 :: lit "a.out"), none⟩).g.size =
      4096 ∧
    (switch_body envHex proc0 ⟨ch 'o', some (lit "0x1f"), none⟩).g.off = 31 :=
  ⟨by decide,
   ((C3_numeric_arguments envHex proc0 (lit "4096" ++ 0 :: lit "a.out") 4096 rfl).1
      (by decide) (by norm_num)).1,
   ((C3_numeric_arguments envHex proc0 (lit "0x1f") 31 rfl).2.1
      (by decide) (by decide)).2.2 (by decide) (by norm_num) |>.2⟩

/-- C4 at `elfspirit` alone. -/
theorem C4_wrong_arity_witness :
    (nonOptions env0 argvC4).length ≠ 2 ∧
    (main env0 argvC4).calls = [] ∧ (main env0 argvC4).outcome.status ≠ 0 ∧
    (main env0 argvC4).out = [.text help] :=
  have h := C4_wrong_arity env0 argvC4 (by decide)
  ⟨by decide, h.1, h.2.1, (h.2.2 (by decide)).1⟩

/-- C5 at `elfspirit parse a.out` with a failing `parse`, and at
`elfspirit -x frobnicate a.out`, where the only text is the diagnostic of
`getopt_long` for `-x`. -/
theorem C5_no_error_report_witness :
    envFail.engine (.parse (arrayAt argvC5 2 0)) = .returned (-1) ∧
    (main envFail argvC5).out = [] ∧ (main envFail argvC5).err = [] ∧
    (main envFail argvC5).outcome = .returned 0 ∧
    main envFail argvC5x = ⟨[], [.invalid_option (ch 'x')], [], .returned 0⟩ :=
  have h := C5_no_error_report envFail argvC5 (argvC5.getD 1 []) (argvC5.getD 2 [])
    (by decide) (by decide) (by unfold helpRuns; decide)
    (by unfold copiesMapped copiesReadable; decide)
  have h' := C5_no_error_report envFail argvC5x (argvC5x.getD 2 []) (argvC5x.getD 3 [])
    (by decide) (by decide) (by unfold helpRuns; decide)
    (by unfold copiesMapped copiesReadable; decide)
  have hr := h.2 (.parse (arrayAt argvC5 2 0)) (-1) (by decide) rfl
  ⟨rfl, hr.1, hr.2.1, hr.2.2,
   h'.1 (by decide) (by decide) (by decide) (by decide) (by decide)⟩

/-- C5 as stated fails: `parse` returns -1 and `main` returns 0 all the same,
with nothing written; and for the function word `frobnicate` nothing is
invoked, nothing is written and `main` returns 0. -/
theorem C5_status_counterexample :
    envFail.engine (.parse (arrayAt argvC5 2 0)) = .returned (-1) ∧
    main envFail argvC5 = ⟨[], [], [.parse (arrayAt argvC5 2 0)], .returned 0⟩ ∧
    (main envFail argvC5).outcome.status = 0 ∧
    main envFail argvC5bad = ⟨[], [], [], .returned 0⟩ ∧
    (main envFail argvC5bad).outcome.status = 0 := by
  decide

/-- C6 at `elfspirit addsec -z abc -o -1 a.out`. -/
theorem C6_no_validation_witness :
    (nonOptions env0 argvC6).map cstr = [lit "addsec", lit "a.out"] ∧
    ∃ off name size,
      (main env0 argvC6).calls = [.add_section (arrayAt argvC6 6 0) off name size] ∧
      size = 0 ∧ off = 4294967295 ∧ name = [] := by
  have h := C6_no_validation env0 argvC6 (argvC6.getD 1 []) (argvC6.getD 6 []) (by decide)
    (by decide) (by unfold helpRuns; decide) (by unfold copiesMapped copiesReadable; decide)
  obtain ⟨off, name, size, hc, hz, ho, hn⟩ := h.1 (by decide)
  refine ⟨by decide, off, name, size, hc, ?_, ?_, hn (by decide)⟩
  · rw [hz (argvC6.getD 3 []) (by decide)]; decide
  · rw [ho (argvC6.getD 5 []) (by decide)]; decide

/-- C6 as stated fails: `add_section` is invoked although the size is not a
number, the offset is negative and no section name is given; and
`delete_section` is invoked without a section name. -/
theorem C6_forwarded_counterexample :
    (main env0 argvC6).calls = [.add_section (arrayAt argvC6 6 0) 4294967295 [] 0] ∧
    (main env0 argvC6del).calls = [.delete_section (arrayAt argvC6del 2 0) []] ∧
    bufstr 64 (arrayAt argvC6 6 0) = some (lit "a.out") ∧
    bufstr 64 (arrayAt argvC6del 2 0) = some (lit "a.out") := by
  decide

/-- C7 at `elfspirit injectso -n .old -f libdemo.so -c conf.json -v 2.31 -n .inj a.out`. -/
theorem C7_injectso_arguments_witness :
    (nonOptions env0 argvC7).map cstr = [lit "injectso", lit "a.out"] ∧
    ∃ name so cfg ver,
      (main env0 argvC7).calls = [.inject_so (arrayAt argvC7 12 0) name so cfg ver] ∧
      bufstr 64 (arrayAt argvC7 12 0) = some (lit "a.out") ∧
      bufstr 64 name = some (lit ".inj") ∧ bufstr 64 so = some (lit "libdemo.so") ∧
      bufstr 64 cfg = some (lit "conf.json") ∧ bufstr 64 ver = some (lit "2.31") := by
  obtain ⟨name, so, cfg, ver, hc, _, hn, hf, hcf, hv, _⟩ :=
    C7_injectso_arguments env0 argvC7 (argvC7.getD 1 []) (argvC7.getD 12 []) (by decide)
      (by decide) (by unfold helpRuns; decide)
      (by unfold copiesMapped copiesReadable; decide) (by decide)
  exact ⟨by decide, name, so, cfg, ver, hc, by decide,
    (hn (argvC7.getD 11 []) (by decide)).2 (by decide),
    (hf (argvC7.getD 5 []) (by decide)).2 (by decide),
    (hcf (argvC7.getD 7 []) (by decide)).2 (by decide),
    (hv (argvC7.getD 9 []) (by decide)).2 (by decide)⟩

/-- C7 as stated fails: with an ELF path of 65 bytes `inject_so` gets an
array that holds the first 64 bytes and no terminator, not the target path. -/
theorem C7_long_path_counterexample :
    (nonOptions env0 argvC7long).map cstr = [lit "injectso", long65] ∧
    (main env0 argvC7long).calls =
      [.inject_so (List.replicate 64 (ch 'a')) (arrayAt argvC7long 3 0)
        (arrayAt argvC7long 5 0) (arrayAt argvC7long 7 0) (arrayAt argvC7long 9 0)] ∧
    (main env0 argvC7long).calls.map (Call.strings 64) =
      [[none, some (lit ".inj"), some (lit "libdemo.so"), some (lit "conf.json"),
        some (lit "2.31")]] := by
  decide

/-- C8 fails on the code: the help text documents `--architecture` and
`--version-libc`, which the table `longopts` does not hold (it holds
`architcture` and `lib-version`); the other six documented names are found
with the character of their short form.  So `--version-libc=2.31` is dropped
(with a diagnostic on standard error) and `inject_so` gets an empty version,
where `-v2.31` passes `2.31`. -/
theorem C8_long_options_diverge :
    documented =
      [(ch 'n', lit "section-name"), (ch 'z', lit "section-size"), (ch 'f', lit "file-name"),
       (ch 'c', lit "configure-name"), (ch 'a', lit "architecture"), (ch 'o', lit "offset"),
       (ch 'v', lit "version-libc"), (ch 'h', lit "help")] ∧
    longLookup longopts (lit "architecture") = .unknown ∧
    longLookup longopts (lit "version-libc") = .unknown ∧
    (∀ d ∈ documented, d.2 ≠ lit "architecture" → d.2 ≠ lit "version-libc" →
      (longLookup longopts d.2).val? = some d.1) ∧
    (main env0 argvC8long).calls =
      [.inject_so (arrayAt argvC8long 9 0) (arrayAt argvC8long 3 0) (arrayAt argvC8long 5 0)
        (arrayAt argvC8long 7 0) []] ∧
    (main env0 argvC8long).calls.map (Call.strings 64) =
      [[some (lit "a.out"), some (lit ".inj"), some (lit "libdemo.so"),
        some (lit "conf.json"), some []]] ∧
    (main env0 argvC8long).err = [.unrecognized (lit "version-libc=2.31")] ∧
    (main env0 argvC8short).calls =
      [.inject_so (arrayAt argvC8short 9 0) (arrayAt argvC8short 3 0)
        (arrayAt argvC8short 5 0) (arrayAt argvC8short 7 0) (arrayAt argvC8short 8 2)] ∧
    (main env0 argvC8short).calls.map (Call.strings 64) =
      [[some (lit "a.out"), some (lit ".inj"), some (lit "libdemo.so"),
        some (lit "conf.json"), some (lit "2.31")]] := by
  have hd : documented =
      [(ch 'n', lit "section-name"), (ch 'z', lit "section-size"), (ch 'f', lit "file-name"),
       (ch 'c', lit "configure-name"), (ch 'a', lit "architecture"), (ch 'o', lit "offset"),
       (ch 'v', lit "version-libc"), (ch 'h', lit "help")] := by decide
  refine ⟨hd, by decide, by decide, ?_, by decide, by decide, by decide, by decide,
    by decide⟩
  rw [hd]
  decide

/-- C9: a request with a non-zero offset that is not word aligned fails with
`AlignmentError` and leaves the file as it was; a request with offset zero is
not rejected, and appends one section at end-of-file. -/
theorem C9_alignment (word : Nat) (img : ElfImage) (name : List Nat) (size off : Nat) :
    (off ≠ 0 → off % word ≠ 0 →
      add_section word img name size off = .error .AlignmentError ∧
      file_after img (add_section word img name size off) = img) ∧
    (off = 0 → ∃ img', add_section word img name size off = .ok img' ∧
      img'.shnum = img.shnum + 1 ∧
      img'.sections = img.sections ++ [⟨name, img.strtab.length, img.bytes.length, size, false⟩]) := by
  constructor
  · intro h0 h1
    have : add_section word img name size off = .error .AlignmentError := by
      unfold add_section
      rw [if_pos ⟨h0, h1⟩]
    rw [this]
    exact ⟨rfl, rfl⟩
  · intro h0
    subst h0
    refine ⟨_, by unfold add_section; rw [if_neg (fun h => h.1 rfl)], rfl, ?_⟩
    simp

/-- C9 at offset 13 with words of 8 bytes. -/
theorem C9_alignment_witness :
    add_section 8 ⟨[1, 2, 3], [0], [], 0⟩ (lit ".note") 16 13 = .error .AlignmentError ∧
    file_after ⟨[1, 2, 3], [0], [], 0⟩ (add_section 8 ⟨[1, 2, 3], [0], [], 0⟩ (lit ".note") 16 13) =
      ⟨[1, 2, 3], [0], [], 0⟩ :=
  (C9_alignment 8 ⟨[1, 2, 3], [0], [], 0⟩ (lit ".note") 16 13).1 (by decide) (by decide)

/-- C10 fails on the code: for `elfspirit -h parse a.out` the `switch` passes
the null `optarg` to `printf` before it tests it.  Where that call kills the
process, no help text is written and `parse` is not invoked, while the same
command line without `-h` invokes `parse`; where `printf` writes `(null)`, the
help text follows and `parse` is invoked. -/
theorem C10_help_without_argument :
    optEvents envPuts argvC10 = [⟨ch 'h', none, none⟩] ∧
    (nonOptions envPuts argvC10).map cstr = [lit "parse", lit "a.out"] ∧
    main envPuts argvC10 = ⟨[], [], [], .killed⟩ ∧
    main envPuts argvC5 = ⟨[], [], [.parse (arrayAt argvC5 2 0)], .returned 0⟩ ∧
    bufstr 64 (arrayAt argvC5 2 0) = some (lit "a.out") ∧
    main env0 argvC10 =
      ⟨[.text "(null)\n", .text help], [], [.parse (arrayAt argvC10 3 0)], .returned 0⟩ ∧
    bufstr 64 (arrayAt argvC10 3 0) = some (lit "a.out") :=
  ⟨by decide, by decide, by decide, by decide, by decide, rfl, by decide⟩

end Elfspirit
